import Mathlib

/-!
# Shindo WebSocket gateway — shallow embedding and verification

This file embeds the core of the `shindo-websocket` gateway in Lean 4 and
proves or refutes a set of claims about it.

The primary implementation is the Cloudflare-Worker variant in
`src/modules/gateway/gateway.ts` (connection registry, auth / ping /
roles.update handlers, heartbeat loop, verification loop, HTTP admin
surface and rate limiter), with `src/modules/gateway/schema.ts` for role
normalization.  The repository also carries a legacy Node variant
(`src/gateway.ts`, `createGateway`) and a Firestore presence service
(`markOnline`, `fetchRoles`, ...) used by the Node gateway; claims that
cite those files are settled against embeddings of those files.

Modelling conventions:
* JS strings are Lean `String`s; `.trim()` / `.toUpperCase()` are modelled
  by executable `trimStr` / `upperStr` over the character list (the ASCII
  fragment of the JS semantics, which covers every string the claims touch).
* Arbitrary JS values (`unknown` parameters, JSON bodies, Firestore fields)
  are modelled by the inductive `JsonVal`, with JS truthiness (`jsFalsy`)
  and `String(...)` coercion (`jsToString`).
* Timestamps are `Nat` milliseconds.  The JS guards `now - t > d` and
  `now - t >= d` (with `d ≥ 0`) agree with truncated `Nat` subtraction:
  a negative JS difference and a truncated-to-0 Lean difference fail the
  guard alike.
* Effectful operations (socket sends, socket closes, presence-store calls,
  KV writes) are modelled as an emitted list of `Effect` values; a
  `Effect.broadcast f` entry marks an invocation of the `broadcastToAll`
  helper with payload `f`, followed by one `Effect.sent` entry per open
  registered socket.
* Presence-store and `crypto.randomUUID()` outcomes are oracle parameters.
-/

/-- JSON-ish JS runtime values (the `unknown` type of the TS sources). -/
inductive JsonVal where
  | str (s : String)
  | num (n : Int)
  | bool (b : Bool)
  | null
  | arr (xs : List JsonVal)
  | obj (fields : List (String × JsonVal))

mutual

/-- Structural decidable equality for `JsonVal` (the `deriving` handler does
not support this nested inductive). -/
def jsonDecEq : (a b : JsonVal) → Decidable (a = b)
  | .str a, .str b =>
      match decEq a b with
      | isTrue h => isTrue (by rw [h])
      | isFalse h => isFalse (fun hh => h (JsonVal.str.inj hh))
  | .num a, .num b =>
      match decEq a b with
      | isTrue h => isTrue (by rw [h])
      | isFalse h => isFalse (fun hh => h (JsonVal.num.inj hh))
  | .bool a, .bool b =>
      match decEq a b with
      | isTrue h => isTrue (by rw [h])
      | isFalse h => isFalse (fun hh => h (JsonVal.bool.inj hh))
  | .null, .null => isTrue rfl
  | .arr xs, .arr ys =>
      match jsonDecEqList xs ys with
      | isTrue h => isTrue (by rw [h])
      | isFalse h => isFalse (fun hh => h (JsonVal.arr.inj hh))
  | .obj xs, .obj ys =>
      match jsonDecEqFields xs ys with
      | isTrue h => isTrue (by rw [h])
      | isFalse h => isFalse (fun hh => h (JsonVal.obj.inj hh))
  | .str _, .num _ => isFalse (fun h => JsonVal.noConfusion h)
  | .str _, .bool _ => isFalse (fun h => JsonVal.noConfusion h)
  | .str _, .null => isFalse (fun h => JsonVal.noConfusion h)
  | .str _, .arr _ => isFalse (fun h => JsonVal.noConfusion h)
  | .str _, .obj _ => isFalse (fun h => JsonVal.noConfusion h)
  | .num _, .str _ => isFalse (fun h => JsonVal.noConfusion h)
  | .num _, .bool _ => isFalse (fun h => JsonVal.noConfusion h)
  | .num _, .null => isFalse (fun h => JsonVal.noConfusion h)
  | .num _, .arr _ => isFalse (fun h => JsonVal.noConfusion h)
  | .num _, .obj _ => isFalse (fun h => JsonVal.noConfusion h)
  | .bool _, .str _ => isFalse (fun h => JsonVal.noConfusion h)
  | .bool _, .num _ => isFalse (fun h => JsonVal.noConfusion h)
  | .bool _, .null => isFalse (fun h => JsonVal.noConfusion h)
  | .bool _, .arr _ => isFalse (fun h => JsonVal.noConfusion h)
  | .bool _, .obj _ => isFalse (fun h => JsonVal.noConfusion h)
  | .null, .str _ => isFalse (fun h => JsonVal.noConfusion h)
  | .null, .num _ => isFalse (fun h => JsonVal.noConfusion h)
  | .null, .bool _ => isFalse (fun h => JsonVal.noConfusion h)
  | .null, .arr _ => isFalse (fun h => JsonVal.noConfusion h)
  | .null, .obj _ => isFalse (fun h => JsonVal.noConfusion h)
  | .arr _, .str _ => isFalse (fun h => JsonVal.noConfusion h)
  | .arr _, .num _ => isFalse (fun h => JsonVal.noConfusion h)
  | .arr _, .bool _ => isFalse (fun h => JsonVal.noConfusion h)
  | .arr _, .null => isFalse (fun h => JsonVal.noConfusion h)
  | .arr _, .obj _ => isFalse (fun h => JsonVal.noConfusion h)
  | .obj _, .str _ => isFalse (fun h => JsonVal.noConfusion h)
  | .obj _, .num _ => isFalse (fun h => JsonVal.noConfusion h)
  | .obj _, .bool _ => isFalse (fun h => JsonVal.noConfusion h)
  | .obj _, .null => isFalse (fun h => JsonVal.noConfusion h)
  | .obj _, .arr _ => isFalse (fun h => JsonVal.noConfusion h)

/-- Componentwise decidable equality for lists of `JsonVal`. -/
def jsonDecEqList : (xs ys : List JsonVal) → Decidable (xs = ys)
  | [], [] => isTrue rfl
  | [], _ :: _ => isFalse (fun h => List.noConfusion h)
  | _ :: _, [] => isFalse (fun h => List.noConfusion h)
  | x :: xs, y :: ys =>
      match jsonDecEq x y, jsonDecEqList xs ys with
      | isTrue h1, isTrue h2 => isTrue (by rw [h1, h2])
      | isFalse h1, _ => isFalse (fun hh => h1 (List.cons.inj hh).1)
      | _, isFalse h2 => isFalse (fun hh => h2 (List.cons.inj hh).2)

/-- Componentwise decidable equality for JSON object field lists. -/
def jsonDecEqFields : (xs ys : List (String × JsonVal)) → Decidable (xs = ys)
  | [], [] => isTrue rfl
  | [], _ :: _ => isFalse (fun h => List.noConfusion h)
  | _ :: _, [] => isFalse (fun h => List.noConfusion h)
  | (k1, v1) :: xs, (k2, v2) :: ys =>
      match decEq k1 k2, jsonDecEq v1 v2, jsonDecEqFields xs ys with
      | isTrue h0, isTrue h1, isTrue h2 => isTrue (by rw [h0, h1, h2])
      | isFalse h0, _, _ => isFalse (fun hh => h0 (congrArg Prod.fst (List.cons.inj hh).1))
      | _, isFalse h1, _ => isFalse (fun hh => h1 (congrArg Prod.snd (List.cons.inj hh).1))
      | _, _, isFalse h2 => isFalse (fun hh => h2 (List.cons.inj hh).2)

end

instance : DecidableEq JsonVal := jsonDecEq

/-- Whitespace recognized by the modelled `.trim()` (ASCII fragment of JS). -/
def jsIsWs (c : Char) : Bool :=
  c = ' ' || c = '\t' || c = '\n' || c = '\r'

/-- JS `String.prototype.trim()` on the ASCII fragment. -/
def trimStr (s : String) : String :=
  ⟨((s.data.dropWhile jsIsWs).reverse.dropWhile jsIsWs).reverse⟩

/-- JS `String.prototype.toUpperCase()` on the ASCII fragment. -/
def upperStr (s : String) : String :=
  ⟨s.data.map Char.toUpper⟩

/-- JS falsiness (`undefined` does not occur as a `JsonVal`; option types
model it at use sites). -/
def jsFalsy : JsonVal → Bool
  | .str s => s = ""
  | .num n => n = 0
  | .bool b => !b
  | .null => true
  | .arr _ => false
  | .obj _ => false

mutual

/-- JS `String(v)` coercion. -/
def jsToString : JsonVal → String
  | .str s => s
  | .num n => toString n
  | .bool b => if b then "true" else "false"
  | .null => "null"
  | .arr xs => jsToStringArr xs
  | .obj _ => "[object Object]"

/-- JS array-to-string: elements joined by commas. -/
def jsToStringArr : List JsonVal → String
  | [] => ""
  | [x] => jsToString x
  | x :: xs => jsToString x ++ "," ++ jsToStringArr xs

end

/-- JS `String(v || "")`: falsy values collapse to the empty string. -/
def jsToStringOrEmpty (v : JsonVal) : String :=
  if jsFalsy v then "" else jsToString v

/-- Helper for first-occurrence deduplication: keep elements not yet seen. -/
def dedupFirstAux (seen : List String) : List String → List String
  | [] => []
  | x :: xs =>
      if seen.contains x then dedupFirstAux seen xs
      else x :: dedupFirstAux (x :: seen) xs

/-- First-occurrence deduplication, the order `Array.from(new Set(xs))`
produces in JS. -/
def dedupFirst (l : List String) : List String := dedupFirstAux [] l

/-- `ALLOWED_ROLES` from `src/modules/gateway/schema.ts`. -/
def ALLOWED_ROLES : List String := ["STAFF", "DIAMOND", "GOLD", "MEMBER"]

/-- `DEFAULT_ROLE` from `src/modules/gateway/gateway.ts`. -/
def DEFAULT_ROLE : String := "MEMBER"

/-- `normalizeRoles` from `src/modules/gateway/schema.ts`: map each element
through `String(value || "").trim().toUpperCase()`, keep members of the
allowed set, deduplicate via `Set`; non-array input yields `[]`. -/
def normalizeRoles (input : JsonVal) : List String :=
  match input with
  | .arr xs =>
      dedupFirst ((xs.map (fun v => upperStr (trimStr (jsToStringOrEmpty v)))).filter
        (fun s => ALLOWED_ROLES.contains s))
  | _ => []

/-- `normalizeRoles` applied to an actual string array (the typed call sites
in the gateway handlers). -/
def normalizeRolesStr (rs : List String) : List String :=
  normalizeRoles (JsonVal.arr (rs.map JsonVal.str))

/-- `normalizeRoles` from the legacy `src/gateway.ts` (`createGateway`
variant): upper-case then trim, filter against the allowed set — and no
deduplication. -/
def normalizeRolesLegacy (input : JsonVal) : List String :=
  match input with
  | .arr xs =>
      (xs.map (fun v => trimStr (upperStr (jsToStringOrEmpty v)))).filter
        (fun s => ALLOWED_ROLES.contains s)
  | _ => []

/-- Modelled from the spec: the canonical account-type set.  The file
`src/modules/types/account.ts` defining `ACCOUNT_TYPES` is absent from
`src/`; the spec describes the enum as a closed set with `LOCAL` the
default catch-all, and the legacy sources use `MICROSOFT` / `OFFLINE`. -/
def ACCOUNT_TYPES : List String := ["LOCAL", "MICROSOFT", "OFFLINE"]

/-- `normalizeAccountType` from `src/modules/gateway/schema.ts`. -/
def normalizeAccountType (input : JsonVal) : String :=
  let value := upperStr (trimStr (jsToStringOrEmpty input))
  if ACCOUNT_TYPES.contains value then value else "LOCAL"

/-! ## Connection registry and effects -/

/-- Opaque socket handles. -/
abbrev SocketId := Nat

/-- `ConnectionState` from `src/modules/gateway/state.ts` (the socket handle
is the registry key; `unansweredKeepAlives` is declared there but never used
by the gateway code, so it is not modelled). -/
structure ConnState where
  uuid : String
  name : String
  roles : List String
  accountType : String
  lastSeen : Nat
  connectedAt : Nat
  lastKeepAliveAt : Nat
  isAlive : Bool
  ip : Option String
deriving DecidableEq

/-- Association-list model of a JS `Map` (insertion order preserved;
`set` on an existing key updates in place, otherwise appends). -/
def alLookup {α : Type} (k : SocketId) : List (SocketId × α) → Option α
  | [] => none
  | e :: es => if e.1 = k then some e.2 else alLookup k es

/-- JS `Map.prototype.set`. -/
def alSet {α : Type} (k : SocketId) (v : α) : List (SocketId × α) → List (SocketId × α)
  | [] => [(k, v)]
  | e :: es => if e.1 = k then (k, v) :: es else e :: alSet k v es

/-- In-place mutation of the `ConnectionState` object stored under a key
(JS handlers mutate the object held by the `Map` rather than re-`set` it). -/
def alUpd {α : Type} (k : SocketId) (f : α → α) (l : List (SocketId × α)) :
    List (SocketId × α) :=
  l.map (fun e => if e.1 = k then (e.1, f e.2) else e)

/-- JS `Map.prototype.delete`. -/
def alRemove {α : Type} (k : SocketId) (l : List (SocketId × α)) : List (SocketId × α) :=
  l.filter (fun e => e.1 ≠ k)

/-- The gateway's in-process state: the connection registry
(`const connections: ConnectionStore = new Map()`). -/
structure GwState where
  conns : List (SocketId × ConnState)
deriving DecidableEq

/-- Server→client frames (§4.1 of the spec, `safeSend`/`broadcastToAll`
payloads in `src/modules/gateway/gateway.ts`).  `adminMsg` is the
`{type, ...(payload ?? {})}` object of `POST /v1/broadcast` (carried
unserialized: its exact JSON shape is not claimed). -/
inductive Frame where
  | authOk (uuid : String) (roles : List String)
  | userJoin (uuid : String) (name : String) (accountType : String)
  | userLeave (uuid : String)
  | userRoles (uuid : String) (roles : List String)
  | pong
  | serverKeepalive
  | serverVerify (uuid : String) (lastSeen : Nat)
  | errInvalidPayload
  | adminMsg (typeVal : JsonVal) (payload : Option JsonVal)
deriving DecidableEq

/-- Observable actions of the gateway: socket sends and closes, presence
store calls, KV writes.  `broadcast f` records an invocation of the
`broadcastToAll` helper with payload `f` (it is followed by one `sent`
entry per open registered socket). -/
inductive Effect where
  | sent (sock : SocketId) (frame : Frame)
  | broadcast (frame : Frame)
  | presenceMarkOnline (uuid name accountType : String) (roles : List String) (ip : Option String)
  | presenceMarkOffline (uuid : String)
  | presenceUpdateLastSeen (uuid : String)
  | presenceUpdateRoles (uuid : String) (roles : List String)
  | presenceFetchRoles (uuid : String)
  | presenceFetchOnline (limit : Nat)
  | presenceCountOnline
  | kvPut (key : String)
  | closed (sock : SocketId) (code : Nat) (reason : String)
deriving DecidableEq

/-- `safeSend`: send only when the socket's `readyState` is `OPEN`
(transport errors are caught and logged, leaving no observable effect,
so a successful send is the recorded outcome). -/
def safeSendEffs (isOpen : SocketId → Bool) (sock : SocketId) (f : Frame) : List Effect :=
  if isOpen sock then [Effect.sent sock f] else []

/-- `broadcastToAll`: serialize once, send to every registered socket whose
`readyState` is `OPEN`. -/
def broadcastEffs (isOpen : SocketId → Bool) (conns : List (SocketId × ConnState))
    (f : Frame) : List Effect :=
  Effect.broadcast f ::
    conns.filterMap (fun e => if isOpen e.1 then some (Effect.sent e.1 f) else none)

/-- `cleanupConnection` from `src/modules/gateway/gateway.ts`: remove the
socket from the registry, attempt `markOffline`, broadcast `user.leave`,
and close the socket when a close code was supplied (`if (closeCode)`). -/
def cleanupConnection (isOpen : SocketId → Bool) (sock : SocketId) (cs : ConnState)
    (closeCode : Option Nat) (reason : String) (conns : List (SocketId × ConnState)) :
    List (SocketId × ConnState) × List Effect :=
  let conns' := alRemove sock conns
  (conns',
    Effect.presenceMarkOffline cs.uuid ::
      broadcastEffs isOpen conns' (Frame.userLeave cs.uuid) ++
      (match closeCode with
       | some c => [Effect.closed sock c reason]
       | none => []))

/-! ## Message handlers (Worker gateway) -/

/-- The parsed `auth` message (output of `authMessageSchema`). -/
structure AuthMsg where
  uuid : String
  name : String
  accountType : String
  roles : Option (List String)
deriving DecidableEq

/-- Outcome of `presence.fetchRoles(uuid)` as observed by `handleAuth`:
the call may throw (caught and logged), return `undefined`, or return a
string array. -/
inductive FetchRolesRes where
  | failure
  | missing
  | found (rs : List String)
deriving DecidableEq

/-- The effective-roles computation of `handleAuth`
(`rolesFromDb?.length ? rolesFromDb : providedRoles.length ? providedRoles
: [DEFAULT_ROLE]`, with `rolesFromDb` set only when the fetched array was
non-empty). -/
def effectiveRolesCalc (fetchRes : FetchRolesRes) (providedRoles : List String) :
    List String :=
  let rolesFromDb : Option (List String) :=
    match fetchRes with
    | .found rs => if rs ≠ [] then some (normalizeRolesStr rs) else none
    | _ => none
  match rolesFromDb with
  | some rdb =>
      if rdb ≠ [] then rdb
      else if providedRoles ≠ [] then providedRoles else [DEFAULT_ROLE]
  | none => if providedRoles ≠ [] then providedRoles else [DEFAULT_ROLE]

/-- `let uuid = (message.uuid || "").trim(); if (!uuid) uuid = crypto.randomUUID()`. -/
def authUuid (freshUuid : String) (m : AuthMsg) : String :=
  if trimStr m.uuid = "" then freshUuid else trimStr m.uuid

/-- `(message.name || "Unknown").trim() || "Unknown"`. -/
def authName (m : AuthMsg) : String :=
  let n := trimStr (if m.name = "" then "Unknown" else m.name)
  if n = "" then "Unknown" else n

/-- `normalizeRoles(message.roles)` (`undefined` is not an array). -/
def authProvidedRoles (m : AuthMsg) : List String :=
  match m.roles with
  | none => []
  | some rs => normalizeRolesStr rs

/-- `handleAuth` from `src/modules/gateway/gateway.ts`.  Oracles:
`fetchRes` is the presence `fetchRoles` outcome, `freshUuid` the
`crypto.randomUUID()` value, `sockIp` the per-socket `clientIp`
attribute, `now` the `Date.now()` reading. -/
def handleAuthW (isOpen : SocketId → Bool) (fetchRes : FetchRolesRes)
    (freshUuid : String) (now : Nat) (sockIp : Option String)
    (sock : SocketId) (m : AuthMsg) (st : GwState) : GwState × List Effect :=
  let uuid := authUuid freshUuid m
  let name := authName m
  let accountType := normalizeAccountType (JsonVal.str m.accountType)
  let providedRoles := authProvidedRoles m
  let prevEffs :=
    match alLookup sock st.conns with
    | some prev =>
        if prev.uuid ≠ "" ∧ prev.uuid ≠ uuid then
          Effect.presenceMarkOffline prev.uuid ::
            broadcastEffs isOpen st.conns (Frame.userLeave prev.uuid)
        else []
    | none => []
  let effectiveRoles := effectiveRolesCalc fetchRes providedRoles
  let cs : ConnState :=
    { uuid := uuid, name := name, roles := effectiveRoles, accountType := accountType,
      lastSeen := now, connectedAt := now, lastKeepAliveAt := now,
      isAlive := true, ip := sockIp }
  let conns' := alSet sock cs st.conns
  (⟨conns'⟩,
    prevEffs ++
      [Effect.presenceFetchRoles uuid,
       Effect.presenceMarkOnline uuid name accountType effectiveRoles sockIp] ++
      safeSendEffs isOpen sock (Frame.authOk uuid effectiveRoles) ++
      broadcastEffs isOpen conns' (Frame.userJoin uuid name accountType))

/-- `handlePing`: refresh `lastSeen`/`isAlive`, attempt `updateLastSeen`,
reply `pong`; a socket without a registry entry is a silent no-op. -/
def handlePingW (isOpen : SocketId → Bool) (now : Nat) (sock : SocketId)
    (st : GwState) : GwState × List Effect :=
  match alLookup sock st.conns with
  | none => (st, [])
  | some cs =>
      (⟨alUpd sock (fun c => { c with lastSeen := now, isAlive := true }) st.conns⟩,
        [Effect.presenceUpdateLastSeen cs.uuid] ++ safeSendEffs isOpen sock Frame.pong)

/-- `handleRolesUpdate`: normalize, store on the registry entry, attempt
`updateRoles`, broadcast `user.roles`. -/
def handleRolesUpdateW (isOpen : SocketId → Bool) (sock : SocketId)
    (rs : List String) (st : GwState) : GwState × List Effect :=
  match alLookup sock st.conns with
  | none => (st, [])
  | some cs =>
      let nr := normalizeRolesStr rs
      let conns' := alUpd sock (fun c => { c with roles := nr }) st.conns
      (⟨conns'⟩,
        Effect.presenceUpdateRoles cs.uuid nr ::
          broadcastEffs isOpen conns' (Frame.userRoles cs.uuid nr))

/-- `handleWarpStatus`: persist telemetry keyed by `warp:status:<uuid>`
for a registered socket with a non-empty uuid; no registry change. -/
def handleWarpStatusW (sock : SocketId) (st : GwState) : GwState × List Effect :=
  match alLookup sock st.conns with
  | none => (st, [])
  | some cs =>
      if cs.uuid = "" then (st, [])
      else (st, [Effect.kvPut ("warp:status:" ++ cs.uuid)])

/-- A parsed client→server message (the discriminated union of
`clientMessageSchema`; payload fields the handlers ignore are omitted). -/
inductive ClientMsg where
  | auth (m : AuthMsg)
  | ping
  | rolesUpdate (roles : List String)
  | warpStatus
deriving DecidableEq

/-- Oracles consumed while one inbound frame is handled. -/
structure MsgCtx where
  isOpen : SocketId → Bool
  fetchRes : FetchRolesRes
  freshUuid : String
  sockIp : Option String
  now : Nat
  now2 : Nat

/-- The per-frame dispatch of the socket `message` listener: run the
matching handler, then (the listener postlude) refresh `lastSeen` and
`isAlive` on whatever entry the socket now has. -/
def msgStep (ctx : MsgCtx) (sock : SocketId) (m : ClientMsg) (st : GwState) :
    GwState × List Effect :=
  let r :=
    match m with
    | .auth am => handleAuthW ctx.isOpen ctx.fetchRes ctx.freshUuid ctx.now ctx.sockIp sock am st
    | .ping => handlePingW ctx.isOpen ctx.now sock st
    | .rolesUpdate rs => handleRolesUpdateW ctx.isOpen sock rs st
    | .warpStatus => handleWarpStatusW sock st
  (⟨alUpd sock (fun c => { c with lastSeen := ctx.now2, isAlive := true }) r.1.conns⟩, r.2)

/-- The socket `close` listener: `cleanupConnection` with no close code
(a socket with no registry entry is a no-op). -/
def closeStep (isOpen : SocketId → Bool) (sock : SocketId) (st : GwState) :
    GwState × List Effect :=
  match alLookup sock st.conns with
  | none => (st, [])
  | some cs =>
      let r := cleanupConnection isOpen sock cs none "client_close" st.conns
      (⟨r.1⟩, r.2)

/-! ## Heartbeat and verification loops -/

/-- One registry entry of a heartbeat tick (`appHeartbeat` in
`src/modules/gateway/gateway.ts`): not-open sockets are evicted with
`4001 socket_not_open`; sockets inactive beyond `offlineAfterMs` with
`4400 inactivity_timeout`; otherwise a keepalive is due once
`tickEveryMs - 250` ms have passed, and a failed keepalive send evicts
with `4401 keepalive_failed`. -/
def hbEntry (isOpen sendFails : SocketId → Bool) (now tickEvery offlineAfter : Nat)
    (acc : List (SocketId × ConnState) × List Effect) (e : SocketId × ConnState) :
    List (SocketId × ConnState) × List Effect :=
  if isOpen e.1 = false then
    let r := cleanupConnection isOpen e.1 e.2 (some 4001) "socket_not_open" acc.1
    (r.1, acc.2 ++ r.2)
  else if offlineAfter < now - e.2.lastSeen then
    let r := cleanupConnection isOpen e.1 e.2 (some 4400) "inactivity_timeout" acc.1
    (r.1, acc.2 ++ r.2)
  else if tickEvery - 250 ≤ now - e.2.lastKeepAliveAt then
    if sendFails e.1 then
      let r := cleanupConnection isOpen e.1 e.2 (some 4401) "keepalive_failed" acc.1
      (r.1, acc.2 ++ r.2)
    else
      (alUpd e.1 (fun c => { c with lastKeepAliveAt := now }) acc.1,
        acc.2 ++ [Effect.sent e.1 Frame.serverKeepalive])
  else acc

/-- A whole heartbeat tick: `tickEveryMs = max(5000, min(intervalMs, 10000))`,
then sweep the registry snapshot.  `sendFails` is the oracle for
`socket.send` throwing on the keepalive payload. -/
def heartbeatTick (hbInterval offlineAfter : Nat) (isOpen sendFails : SocketId → Bool)
    (now : Nat) (st : GwState) : GwState × List Effect :=
  let tickEvery := max 5000 (min hbInterval 10000)
  let r := st.conns.foldl (hbEntry isOpen sendFails now tickEvery offlineAfter) (st.conns, [])
  (⟨r.1⟩, r.2)

/-- A row of the presence snapshot used by the verification loop
(`PresenceSnapshot` of the presence client). -/
structure PresSnap where
  uuid : String
  name : String
  accountType : String
  roles : List String
  online : Bool
deriving DecidableEq

/-- `new Map(snapshot.map(u => [u.uuid, u]))`: the last row with a given
uuid wins. -/
def byUuidLookup (snapshot : List PresSnap) (u : String) : Option PresSnap :=
  snapshot.foldl (fun acc r => if r.uuid = u then some r else acc) none

/-- One registry entry of a verification tick (`startVerificationLoop`):
not-open sockets are evicted with `4401`; uuids the snapshot lacks (or
marks offline) with `4403 verification_d1_offline`; identity mismatches
with `4403 verification_identity_mismatch`; consistent entries receive a
`server.verify` frame. -/
def verifyEntry (isOpen : SocketId → Bool) (byUuid : String → Option PresSnap)
    (acc : List (SocketId × ConnState) × List Effect) (e : SocketId × ConnState) :
    List (SocketId × ConnState) × List Effect :=
  if isOpen e.1 = false then
    let r := cleanupConnection isOpen e.1 e.2 (some 4401) "verification_socket_not_open" acc.1
    (r.1, acc.2 ++ r.2)
  else
    match byUuid e.2.uuid with
    | none =>
        let r := cleanupConnection isOpen e.1 e.2 (some 4403) "verification_d1_offline" acc.1
        (r.1, acc.2 ++ r.2)
    | some row =>
        if row.online = false then
          let r := cleanupConnection isOpen e.1 e.2 (some 4403) "verification_d1_offline" acc.1
          (r.1, acc.2 ++ r.2)
        else if row.name ≠ e.2.name || row.accountType ≠ e.2.accountType then
          let r := cleanupConnection isOpen e.1 e.2 (some 4403) "verification_identity_mismatch" acc.1
          (r.1, acc.2 ++ r.2)
        else
          (acc.1, acc.2 ++ safeSendEffs isOpen e.1 (Frame.serverVerify e.2.uuid e.2.lastSeen))

/-- One verification tick.  `fetchRes` is the `fetchOnlineUsers` outcome;
the source catches a failure and CONTINUES WITH AN EMPTY LIST
(`.catch(() => { ...log...; return []; })`), it does not skip the tick. -/
def verifyTickW (isOpen : SocketId → Bool)
    (fetchRes : Except Unit (List PresSnap)) (st : GwState) : GwState × List Effect :=
  let limit := max 100 st.conns.length
  let snapshot := match fetchRes with
    | .ok l => l
    | .error _ => []
  let r := st.conns.foldl (verifyEntry isOpen (byUuidLookup snapshot))
    (st.conns, [Effect.presenceFetchOnline limit])
  (⟨r.1⟩, r.2)

/-! ## HTTP surface and rate limiter (Worker gateway) -/

/-- The configuration fields the embedded handlers read. -/
structure Config where
  wsPath : String
  adminKey : String
  hbInterval : Nat
  offlineAfter : Nat
  windowMs : Nat
  maxReq : Nat
deriving DecidableEq

/-- A rate-limiter bucket (`{count, resetAt}`). -/
structure RLBucket where
  count : Nat
  resetAt : Nat
deriving DecidableEq

/-- The per-IP bucket map (`rateLimitState`), keyed by resolved client IP
or the literal `"unknown"`. -/
abbrev RLState := List (String × RLBucket)

/-- String-keyed JS `Map` lookup. -/
def rlLookup (k : String) : RLState → Option RLBucket
  | [] => none
  | e :: es => if e.1 = k then some e.2 else rlLookup k es

/-- String-keyed JS `Map.set`. -/
def rlSet (k : String) (v : RLBucket) : RLState → RLState
  | [] => [(k, v)]
  | e :: es => if e.1 = k then (k, v) :: es else e :: rlSet k v es

/-- `isRateLimited` from `src/modules/gateway/gateway.ts`: fixed window,
reset when absent or expired, reject at `count >= max`, else increment. -/
def isRateLimited (cfg : Config) (clientIp : Option String) (now : Nat)
    (rl : RLState) : Bool × RLState :=
  let addr := clientIp.getD "unknown"
  match rlLookup addr rl with
  | none => (false, rlSet addr ⟨1, now + cfg.windowMs⟩ rl)
  | some b =>
      if b.resetAt < now then (false, rlSet addr ⟨1, now + cfg.windowMs⟩ rl)
      else if cfg.maxReq ≤ b.count then (true, rl)
      else (false, rlSet addr ⟨b.count + 1, b.resetAt⟩ rl)

/-- The header fields of an HTTP request that the gateway reads. -/
structure HttpReq where
  method : String
  path : String
  upgradeHeader : Option String
  adminKeyHeader : Option String
  forwardedProto : Option String
deriving DecidableEq

/-- `isAuthorized`: the `x-admin-key` header must be present and equal the
configured admin key. -/
def isAuthorizedReq (cfg : Config) (req : HttpReq) : Bool :=
  match req.adminKeyHeader with
  | some k => k = cfg.adminKey
  | none => false

/-- JS `String.prototype.toLowerCase()` on the ASCII fragment. -/
def lowerStr (s : String) : String :=
  ⟨s.data.map Char.toLower⟩

/-- `isSecureRequest`: a present (truthy) `x-forwarded-proto` header whose
lower-casing is not `https` marks the request insecure. -/
def isSecureRequest (req : HttpReq) : Bool :=
  match req.forwardedProto with
  | some p => if p ≠ "" && lowerStr p ≠ "https" then false else true
  | none => true

/-- `handleWebSocket`'s response status: 400 when insecure, 426 without a
truthy `websocket` upgrade header, else 101 (accept the pair). -/
def wsUpgradeStatus (req : HttpReq) : Nat :=
  if isSecureRequest req = false then 400
  else match req.upgradeHeader with
    | some u => if u ≠ "" && lowerStr u = "websocket" then 101 else 426
    | none => 426

/-- The JSON-object field access `(body ?? {}).type` / `.payload` with JS
object-literal semantics (the last duplicate key wins). -/
def objField (fields : List (String × JsonVal)) (k : String) : Option JsonVal :=
  fields.foldl (fun acc f => if f.1 = k then some f.2 else acc) none

/-- Extraction of the `/v1/broadcast` body: destructure `{type, payload}`
from `(body ?? {})`; `type` must be a string with non-empty trim. -/
def getBroadcastParts (body : JsonVal) : Option (String × Option JsonVal) :=
  match body with
  | .obj fields =>
      match objField fields "type" with
      | some (.str t) => if trimStr t = "" then none else some (t, objField fields "payload")
      | _ => none
  | _ => none

/-- Oracles consumed by one HTTP request. -/
structure HttpOracles where
  countOk : Bool
  cuFetch : Except Unit (List PresSnap)
  body : Option JsonVal

/-- The result of `handleRequest`: the HTTP status, the emitted effects,
and the updated rate-limiter map and registry (the registry is never
written by the HTTP branches). -/
structure HttpResult where
  status : Nat
  effects : List Effect
  rl : RLState
  st : GwState
deriving DecidableEq

/-- `handleRequest` from `src/modules/gateway/gateway.ts`.  Branch order as
in the source: CORS preflight; WebSocket upgrade (path matches and the
`upgrade` header is literally `websocket`); the rate-limiter gate; then
`/v1/health`, `/v1/connected-users`, `/v1/broadcast`, 404. -/
def handleRequestW (cfg : Config) (o : HttpOracles) (now : Nat)
    (clientIp : Option String) (req : HttpReq) (isOpen : SocketId → Bool)
    (st : GwState) (rl : RLState) : HttpResult :=
  if req.method = "OPTIONS" then ⟨204, [], rl, st⟩
  else if req.path = cfg.wsPath ∧ req.upgradeHeader = some "websocket" then
    ⟨wsUpgradeStatus req, [], rl, st⟩
  else
    let g := isRateLimited cfg clientIp now rl
    if g.1 then ⟨429, [], g.2, st⟩
    else if req.path = "/v1/health" ∧ req.method = "GET" then
      ⟨200, [Effect.presenceCountOnline], g.2, st⟩
    else if req.path = "/v1/connected-users" ∧ req.method = "GET" then
      if isAuthorizedReq cfg req = false then ⟨401, [], g.2, st⟩
      else ⟨200, [Effect.presenceFetchOnline 500], g.2, st⟩
    else if req.path = "/v1/broadcast" ∧ req.method = "POST" then
      if isAuthorizedReq cfg req = false then ⟨401, [], g.2, st⟩
      else
        match o.body with
        | none => ⟨400, [], g.2, st⟩
        | some body =>
            match getBroadcastParts body with
            | none => ⟨400, [], g.2, st⟩
            | some (t, payload) =>
                ⟨200, broadcastEffs isOpen st.conns (Frame.adminMsg (JsonVal.str t) payload),
                  g.2, st⟩
    else ⟨404, [], g.2, st⟩

/-! ## Legacy `createGateway` admin routes (`src/gateway.ts`) -/

/-- The user projection the legacy `/v1/connected-users` route returns. -/
structure LegacyUserView where
  uuid : String
  name : String
  accountType : String
  lastSeen : Nat
  roles : List String
deriving DecidableEq

/-- Legacy `GET /v1/connected-users` route from `createGateway`: it reads
no admin key at all and answers 200 with the projected registry. -/
def legacyConnectedUsersRoute (_req : HttpReq) (st : GwState) :
    Nat × List LegacyUserView :=
  (200, st.conns.map (fun e =>
    ⟨e.2.uuid, e.2.name, e.2.accountType, e.2.lastSeen, e.2.roles⟩))

/-- Legacy `POST /v1/broadcast` route from `createGateway`:
`(req.headers["x-admin-key"] || "") !== config.adminKey` gates it; a falsy
`type` is a 400; otherwise the payload is broadcast over `wss.clients`. -/
def legacyBroadcastRoute (cfg : Config) (req : HttpReq) (body : Option JsonVal)
    (isOpen : SocketId → Bool) (clients : List SocketId) : Nat × List Effect :=
  if (req.adminKeyHeader.getD "") ≠ cfg.adminKey then (401, [])
  else
    let tv := match body with
      | some (.obj fields) => objField fields "type"
      | _ => none
    match tv with
    | none => (400, [])
    | some v =>
        if jsFalsy v then (400, [])
        else
          let payload := match body with
            | some (.obj fields) => objField fields "payload"
            | _ => none
          let f := Frame.adminMsg v payload
          (200, Effect.broadcast f ::
            clients.filterMap (fun s => if isOpen s then some (Effect.sent s f) else none))

/-! ## Firestore presence service (`src/modules/presence/service.ts`,
crate `unnamed/part_000`) and the Node auth flow that calls it -/

/-- A Firestore `users/<uuid>` document; absent fields are `none`.
Timestamps are the ISO strings the service writes. -/
structure FsUser where
  nameF : Option String
  accountTypeF : Option String
  onlineF : Option Bool
  lastJoinF : Option String
  lastSeenF : Option String
  lastLeaveF : Option String
  rolesF : Option (List JsonVal)
deriving DecidableEq

/-- The `users` collection, keyed by uuid. -/
abbrev FsStore := List (String × FsUser)

/-- Collection lookup by document id. -/
def fsLookup (uuid : String) : FsStore → Option FsUser
  | [] => none
  | e :: es => if e.1 = uuid then some e.2 else fsLookup uuid es

/-- Store a document under its id. -/
def fsSet (uuid : String) (u : FsUser) : FsStore → FsStore
  | [] => [(uuid, u)]
  | e :: es => if e.1 = uuid then (uuid, u) :: es else e :: fsSet uuid u es

/-- The record argument of the Firestore `markOnline`. -/
structure FsRecord where
  uuid : String
  name : String
  rolesR : Option (List String)
  accountType : String
deriving DecidableEq

/-- `markOnline(record, rolesToPersist?)` from the Firestore presence
service: a `set(..., {merge: true})` whose payload always contains
`uuid, name, account_type, online: true, last_join: now, last_seen: now`
and `roles: rolesToPersist ?? record.roles ?? []`.  With `merge: true`
only unlisted fields (here `last_leave`) survive from the previous
document — the `roles` field is in the payload on every call. -/
def markOnline (now : String) (record : FsRecord) (rolesToPersist : Option (List String))
    (store : FsStore) : FsStore :=
  let prev := fsLookup record.uuid store
  let rolesWritten := (rolesToPersist.getD (record.rolesR.getD [])).map JsonVal.str
  fsSet record.uuid
    { nameF := some record.name
      accountTypeF := some record.accountType
      onlineF := some true
      lastJoinF := some now
      lastSeenF := some now
      lastLeaveF := match prev with
        | some u => u.lastLeaveF
        | none => none
      rolesF := some rolesWritten } store

/-- `fetchRoles(uuid)` from the Firestore presence service: missing
document or missing/empty (after keeping only strings) `roles` field is
`undefined`; otherwise the string list. -/
def fetchRoles (uuid : String) (store : FsStore) : Option (List String) :=
  match fsLookup uuid store with
  | none => none
  | some u =>
      match u.rolesF with
      | none => none
      | some xs =>
          let rs := xs.filterMap (fun v => match v with
            | .str s => some s
            | _ => none)
          if rs ≠ [] then some rs else none

/-- The presence side of the Node gateway's `handleAuth`
(`src/modules/gateway/gateway.ts` of the Node variant, `unnamed/part_005`
lines 195–236): fetch roles, normalize when non-empty, resolve effective
roles, then `markOnline({uuid, name, roles: effective, accountType},
rolesFromDb?.length ? undefined : effectiveRoles)`.  Returns the updated
store, the `rolesToPersist` argument that was passed, and the effective
roles. -/
def nodeAuthPresence (now : String) (uuid name accountType : String)
    (providedRoles : List String) (store : FsStore) :
    FsStore × Option (List String) × List String :=
  let fetched := fetchRoles uuid store
  let rolesFromDb : Option (List String) :=
    match fetched with
    | some rs => if rs ≠ [] then some (normalizeRolesStr rs) else none
    | none => none
  let effectiveRoles :=
    match rolesFromDb with
    | some rdb =>
        if rdb ≠ [] then rdb
        else if providedRoles ≠ [] then providedRoles else [DEFAULT_ROLE]
    | none => if providedRoles ≠ [] then providedRoles else [DEFAULT_ROLE]
  let rolesToPersistArg : Option (List String) :=
    match rolesFromDb with
    | some rdb => if rdb ≠ [] then none else some effectiveRoles
    | none => some effectiveRoles
  let store' := markOnline now
    { uuid := uuid, name := name, rolesR := some effectiveRoles, accountType := accountType }
    rolesToPersistArg store
  (store', rolesToPersistArg, effectiveRoles)

/-! ## Spec-side role resolution (for refinement against the code) -/

/-- The spec's role-resolution order, transcribed from its words: "(a)
fetch canonical roles from presence store; if non-empty, use them; else
(b) provided roles if non-empty; else (c) `[MEMBER]`" — where the
canonical store roles enter normalized, per "the normalized non-empty
role set fetched from the presence store if one exists". -/
def specEffectiveRoles (fetchRes : FetchRolesRes) (providedRoles : List String) :
    List String :=
  let canonical : List String :=
    match fetchRes with
    | .found rs => normalizeRolesStr rs
    | _ => []
  if canonical ≠ [] then canonical
  else if providedRoles ≠ [] then providedRoles
  else ["MEMBER"]

/-! ## Reachable gateway states -/

/-- The post-conditions `clientMessageSchema` guarantees about a parsed
message (zod's `trim`/`toUpperCase` transforms run before validation, so
parsed strings are canonical). -/
def SchemaValid : ClientMsg → Prop
  | .auth m =>
      trimStr m.uuid = m.uuid ∧ m.uuid ≠ "" ∧
      trimStr m.name = m.name ∧ m.name ≠ "" ∧ m.name.length ≤ 32 ∧
      ACCOUNT_TYPES.contains m.accountType = true ∧
      (∀ rs, m.roles = some rs →
        rs.length ≤ 8 ∧ ∀ r ∈ rs, ALLOWED_ROLES.contains r = true)
  | .ping => True
  | .rolesUpdate rs =>
      rs ≠ [] ∧ rs.length ≤ 8 ∧ ∀ r ∈ rs, ALLOWED_ROLES.contains r = true
  | .warpStatus => True

/-- One transition of the gateway's shared state: a schema-valid inbound
frame, a heartbeat tick, a verification tick, or a socket close event. -/
inductive Step : GwState → GwState → Prop where
  | msg (st : GwState) (ctx : MsgCtx) (sock : SocketId) (m : ClientMsg)
      (hv : SchemaValid m) : Step st (msgStep ctx sock m st).1
  | hb (st : GwState) (hbInterval offlineAfter : Nat) (isOpen sendFails : SocketId → Bool)
      (now : Nat) : Step st (heartbeatTick hbInterval offlineAfter isOpen sendFails now st).1
  | verify (st : GwState) (isOpen : SocketId → Bool)
      (fetchRes : Except Unit (List PresSnap)) :
      Step st (verifyTickW isOpen fetchRes st).1
  | close (st : GwState) (isOpen : SocketId → Bool) (sock : SocketId) :
      Step st (closeStep isOpen sock st).1

/-- States reachable from the empty registry the gateway boots with. -/
inductive Reachable : GwState → Prop where
  | init : Reachable ⟨[]⟩
  | step {st st' : GwState} : Reachable st → Step st st' → Reachable st'


/-! ## Basic lemmas about the helpers -/

theorem contains_iff_mem_str (l : List String) (a : String) :
    l.contains a = true ↔ a ∈ l := by
  constructor
  · intro h
    exact List.mem_of_elem_eq_true h
  · intro h
    exact List.elem_eq_true_of_mem h

theorem mem_dedupFirstAux {x : String} :
    ∀ (seen l : List String), x ∈ dedupFirstAux seen l ↔ x ∈ l ∧ x ∉ seen := by
  intro seen l
  induction l generalizing seen with
  | nil => simp [dedupFirstAux]
  | cons y ys ih =>
      simp only [dedupFirstAux]
      by_cases hy : seen.contains y = true
      · have hym : y ∈ seen := (contains_iff_mem_str _ _).mp hy
        rw [if_pos hy, ih seen]
        constructor
        · intro h
          exact ⟨List.mem_cons_of_mem _ h.1, h.2⟩
        · rintro ⟨h1, h2⟩
          rcases List.mem_cons.mp h1 with h1 | h1
          · exact absurd (h1 ▸ hym) h2
          · exact ⟨h1, h2⟩
      · have hym : y ∉ seen := fun hc => hy ((contains_iff_mem_str _ _).mpr hc)
        simp only [hy, Bool.false_eq_true, if_false, List.mem_cons, ih (y :: seen)]
        by_cases hxy : x = y
        · subst hxy
          simp [hym]
        · simp [hxy]

theorem mem_dedupFirst {x : String} {l : List String} : x ∈ dedupFirst l ↔ x ∈ l := by
  rw [dedupFirst, mem_dedupFirstAux]
  simp

theorem dedupFirstAux_nodup : ∀ (seen l : List String), (dedupFirstAux seen l).Nodup := by
  intro seen l
  induction l generalizing seen with
  | nil => simp [dedupFirstAux]
  | cons y ys ih =>
      simp only [dedupFirstAux]
      by_cases hy : seen.contains y = true
      · rw [if_pos hy]
        exact ih seen
      · rw [if_neg hy]
        refine List.nodup_cons.mpr ⟨?_, ih (y :: seen)⟩
        intro hmem
        exact ((mem_dedupFirstAux (y :: seen) ys).mp hmem).2 (List.mem_cons_self y seen)

theorem dedupFirst_nodup (l : List String) : (dedupFirst l).Nodup :=
  dedupFirstAux_nodup [] l

theorem dedupFirst_cons_ne_nil (y : String) (ys : List String) :
    dedupFirst (y :: ys) ≠ [] := by
  simp [dedupFirst, dedupFirstAux]

theorem normalizeRoles_nodup (input : JsonVal) : (normalizeRoles input).Nodup := by
  cases input <;> simp [normalizeRoles, dedupFirst_nodup]

theorem normalizeRoles_mem_allowed {r : String} {input : JsonVal}
    (h : r ∈ normalizeRoles input) : r ∈ ALLOWED_ROLES := by
  cases input <;> simp [normalizeRoles] at h
  have hmem := mem_dedupFirst.mp h
  have := (List.mem_filter.mp hmem).2
  exact (contains_iff_mem_str _ _).mp (by simpa using this)

theorem normalizeRoles_non_array {input : JsonVal}
    (h : ∀ xs, input ≠ JsonVal.arr xs) : normalizeRoles input = [] := by
  cases input <;> first
    | rfl
    | exact absurd rfl (h _)

/-- Each allowed role is a fixed point of the JS
`String(v || "").trim().toUpperCase()` pipeline. -/
theorem canonical_role_fix {r : String} (h : r ∈ ALLOWED_ROLES) :
    upperStr (trimStr (jsToStringOrEmpty (JsonVal.str r))) = r := by
  simp only [ALLOWED_ROLES, List.mem_cons, List.not_mem_nil, or_false] at h
  rcases h with h1 | h1 | h1 | h1 <;> subst h1 <;> decide

theorem normalizeRolesStr_canonical_cons {r : String} {rest : List String}
    (hr : r ∈ ALLOWED_ROLES) :
    normalizeRolesStr (r :: rest) ≠ [] := by
  have hc : ALLOWED_ROLES.contains r = true := (contains_iff_mem_str _ _).mpr hr
  simp only [normalizeRolesStr, normalizeRoles, List.map_cons, List.map_map]
  rw [Function.comp_def, canonical_role_fix hr]
  rw [List.filter_cons]
  simp only [hc, if_true]
  exact dedupFirst_cons_ne_nil _ _

/-- A schema-valid non-empty canonical role list normalizes to a
non-empty list. -/
theorem normalizeRolesStr_valid_ne_nil {rs : List String}
    (hne : rs ≠ []) (hall : ∀ r ∈ rs, ALLOWED_ROLES.contains r = true) :
    normalizeRolesStr rs ≠ [] := by
  cases rs with
  | nil => exact absurd rfl hne
  | cons r rest =>
      exact normalizeRolesStr_canonical_cons
        ((contains_iff_mem_str _ _).mp (hall r (List.mem_cons_self r rest)))

/-- The auth handler's effective-role computation always yields a
non-empty list. -/
theorem effectiveRolesCalc_ne_nil (fetchRes : FetchRolesRes) (provided : List String) :
    effectiveRolesCalc fetchRes provided ≠ [] := by
  unfold effectiveRolesCalc
  cases fetchRes with
  | found rs =>
      by_cases hp : provided = [] <;>
        by_cases hrs : rs = [] <;>
        by_cases hn : normalizeRolesStr rs = [] <;>
        simp [hp, hrs, hn, DEFAULT_ROLE]
  | failure => by_cases hp : provided = [] <;> simp [hp, DEFAULT_ROLE]
  | missing => by_cases hp : provided = [] <;> simp [hp, DEFAULT_ROLE]

/-- The code's effective-role computation coincides with the spec's
worded resolution order. -/
theorem effectiveRolesCalc_eq_spec (fetchRes : FetchRolesRes) (provided : List String) :
    effectiveRolesCalc fetchRes provided = specEffectiveRoles fetchRes provided := by
  unfold effectiveRolesCalc specEffectiveRoles
  cases fetchRes with
  | found rs =>
      by_cases hrs : rs = []
      · subst hrs
        simp [normalizeRolesStr, normalizeRoles, dedupFirst, dedupFirstAux, DEFAULT_ROLE]
      · by_cases hn : normalizeRolesStr rs = [] <;> simp [hrs, hn, DEFAULT_ROLE]
  | failure => simp [DEFAULT_ROLE]
  | missing => simp [DEFAULT_ROLE]

/-! ## Registry (association-list) lemmas -/

theorem alLookup_alSet_self {α : Type} (k : SocketId) (v : α) :
    ∀ (l : List (SocketId × α)), alLookup k (alSet k v l) = some v
  | [] => by simp [alSet, alLookup]
  | e :: es => by
      by_cases h : e.1 = k
      · simp [alSet, alLookup, h]
      · simp [alSet, alLookup, h, alLookup_alSet_self k v es]

theorem alLookup_alUpd {α : Type} (k j : SocketId) (f : α → α)
    (l : List (SocketId × α)) :
    alLookup k (alUpd j f l) =
      if k = j then (alLookup k l).map f else alLookup k l := by
  induction l with
  | nil => by_cases hkj : k = j <;> simp [alUpd, alLookup, hkj]
  | cons e es ih =>
      simp only [alUpd, List.map_cons]
      by_cases hej : e.1 = j
      · by_cases hek : e.1 = k
        · have hkj : k = j := by rw [← hek, hej]
          simp [alLookup, hej, hek, hkj]
        · have hkj : ¬ k = j := fun hc => hek (by rw [hej, ← hc])
          have hjk : ¬ j = k := fun hc => hkj hc.symm
          simpa [alLookup, alUpd, hej, hek, hjk, hkj] using ih
      · by_cases hek : e.1 = k
        · have hkj : ¬ k = j := fun hc => hej (by rw [hek, hc])
          simp [alLookup, hej, hek, hkj]
        · simp only [alLookup, hej, if_false, hek]
          simpa [alUpd] using ih

theorem alLookup_alRemove_self {α : Type} (k : SocketId) (l : List (SocketId × α)) :
    alLookup k (alRemove k l) = none := by
  induction l with
  | nil => simp [alRemove, alLookup]
  | cons e es ih =>
      by_cases h : e.1 = k
      · simpa [alRemove, List.filter_cons, h] using ih
      · simpa [alRemove, List.filter_cons, h, alLookup] using ih

theorem alLookup_alRemove_none {α : Type} (k j : SocketId) (l : List (SocketId × α))
    (h : alLookup k l = none) : alLookup k (alRemove j l) = none := by
  induction l with
  | nil => simp [alRemove, alLookup]
  | cons e es ih =>
      simp only [alLookup] at h
      by_cases he : e.1 = k
      · simp [he] at h
      · simp only [he, if_false] at h
        by_cases hej : e.1 = j
        · simpa [alRemove, List.filter_cons, hej] using ih h
        · simpa [alRemove, List.filter_cons, hej, alLookup, he] using ih h

theorem alLookup_alUpd_none {α : Type} (k j : SocketId) (f : α → α)
    (l : List (SocketId × α)) (h : alLookup k l = none) :
    alLookup k (alUpd j f l) = none := by
  rw [alLookup_alUpd]
  by_cases hkj : k = j
  · subst hkj
    simp [h]
  · simp [hkj, h]

theorem mem_alSet {α : Type} {e : SocketId × α} (k : SocketId) (v : α) :
    ∀ {l : List (SocketId × α)}, e ∈ alSet k v l → e = (k, v) ∨ e ∈ l
  | [] => by simp [alSet]
  | e₀ :: es => by
      by_cases h : e₀.1 = k
      · intro hm
        simp only [alSet, h, if_true, List.mem_cons] at hm
        rcases hm with hm | hm
        · exact Or.inl hm
        · exact Or.inr (List.mem_cons_of_mem _ hm)
      · intro hm
        simp only [alSet, h, if_false, List.mem_cons] at hm
        rcases hm with hm | hm
        · exact Or.inr (by simp [hm])
        · rcases mem_alSet k v hm with h1 | h1
          · exact Or.inl h1
          · exact Or.inr (List.mem_cons_of_mem _ h1)

theorem mem_alUpd {α : Type} {e : SocketId × α} {k : SocketId} {f : α → α}
    {l : List (SocketId × α)} (h : e ∈ alUpd k f l) :
    ∃ e₀ ∈ l, e = e₀ ∨ e = (e₀.1, f e₀.2) := by
  rcases List.mem_map.mp h with ⟨e₀, he₀, heq⟩
  refine ⟨e₀, he₀, ?_⟩
  by_cases hk : e₀.1 = k
  · right; simpa [hk] using heq.symm
  · left; simpa [hk] using heq.symm

theorem mem_alRemove {α : Type} {e : SocketId × α} {k : SocketId}
    {l : List (SocketId × α)} (h : e ∈ alRemove k l) : e ∈ l :=
  (List.mem_filter.mp h).1

theorem alLookup_mem {α : Type} {k : SocketId} {v : α} :
    ∀ {l : List (SocketId × α)}, alLookup k l = some v → (k, v) ∈ l
  | [] => by simp [alLookup]
  | e :: es => by
      intro h
      by_cases he : e.1 = k
      · simp only [alLookup, he, if_true, Option.some.injEq] at h
        have heq : (k, v) = e := by
          obtain ⟨a, b⟩ := e
          simp only at he h
          rw [he, h]
        rw [heq]
        exact List.mem_cons_self _ _
      · simp only [alLookup, he, if_false] at h
        exact List.mem_cons_of_mem _ (alLookup_mem h)

/-! ## Claim C8 — `normalize_roles` -/

theorem normalizeRolesLegacy_mem_allowed {r : String} {input : JsonVal}
    (h : r ∈ normalizeRolesLegacy input) : r ∈ ALLOWED_ROLES := by
  cases input <;> simp [normalizeRolesLegacy, List.mem_filter] at h
  exact h.2

/-- C8, counterexample: the claim covers the legacy `normalizeRoles` of
`src/gateway.ts` (cited by the claim), which performs no deduplication:
on `["GOLD", "GOLD"]` it returns `["GOLD", "GOLD"]`, which is not a
deduplicated array. -/
theorem C8_normalizeRoles_counterexample :
    normalizeRolesLegacy (JsonVal.arr [JsonVal.str "GOLD", JsonVal.str "GOLD"]) =
      ["GOLD", "GOLD"] ∧
    ¬ (normalizeRolesLegacy (JsonVal.arr [JsonVal.str "GOLD", JsonVal.str "GOLD"])).Nodup := by
  constructor
  · decide
  · decide

/-- C8, amended: the schema `normalizeRoles` (used by every gateway
handler) returns a deduplicated ordered array drawn from the allowed set
`{STAFF, DIAMOND, GOLD, MEMBER}` after trimming and upper-casing each
element, and `[]` on non-array input; the legacy `createGateway`
`normalizeRoles` also draws from the allowed set after upper-casing and
trimming and returns `[]` on non-array input, but does not deduplicate. -/
theorem C8_normalizeRoles_amended :
    (∀ input : JsonVal, (normalizeRoles input).Nodup) ∧
    (∀ (input : JsonVal) (r : String), r ∈ normalizeRoles input → r ∈ ALLOWED_ROLES) ∧
    (∀ input : JsonVal, (∀ xs, input ≠ JsonVal.arr xs) → normalizeRoles input = []) ∧
    (∀ (xs : List JsonVal),
      normalizeRoles (JsonVal.arr xs) =
        dedupFirst ((xs.map (fun v => upperStr (trimStr (jsToStringOrEmpty v)))).filter
          (fun s => ALLOWED_ROLES.contains s))) ∧
    (∀ (input : JsonVal) (r : String), r ∈ normalizeRolesLegacy input → r ∈ ALLOWED_ROLES) ∧
    (∀ input : JsonVal, (∀ xs, input ≠ JsonVal.arr xs) → normalizeRolesLegacy input = []) := by
  refine ⟨normalizeRoles_nodup, fun _ _ h => normalizeRoles_mem_allowed h,
    fun _ h => normalizeRoles_non_array h, fun xs => rfl,
    fun _ _ h => normalizeRolesLegacy_mem_allowed h, fun input h => ?_⟩
  cases input <;> first
    | rfl
    | exact absurd rfl (h _)

/-- C8 witness: the amended theorem applied at concrete inputs. -/
theorem C8_normalizeRoles_amended_witness :
    (normalizeRoles (JsonVal.arr [JsonVal.str " gold ", JsonVal.str "GOLD",
      JsonVal.str "bogus"])).Nodup ∧
    "GOLD" ∈ ALLOWED_ROLES ∧
    normalizeRoles (JsonVal.num 3) = [] ∧
    normalizeRolesLegacy JsonVal.null = [] :=
  ⟨C8_normalizeRoles_amended.1 _,
   C8_normalizeRoles_amended.2.1 (JsonVal.arr [JsonVal.str "GOLD"]) "GOLD" (by decide),
   C8_normalizeRoles_amended.2.2.1 (JsonVal.num 3) (fun _ h => JsonVal.noConfusion h),
   C8_normalizeRoles_amended.2.2.2.2.2 JsonVal.null (fun _ h => JsonVal.noConfusion h)⟩

/-! ## Claim C2 — auth effective roles -/

/-- C2: for every handled auth frame, the effective roles are exactly the
spec's resolution order — the normalized non-empty store role set if one
exists, else the normalized provided roles if non-empty, else exactly
`[MEMBER]` — and the `auth.ok` frame emitted by the handler goes to
exactly the authenticating socket (when it is open) carrying exactly
those effective roles. -/
theorem C2_auth_effective_roles (isOpen : SocketId → Bool) (fetchRes : FetchRolesRes)
    (freshUuid : String) (now : Nat) (sockIp : Option String) (sock : SocketId)
    (m : AuthMsg) (st : GwState) :
    effectiveRolesCalc fetchRes (authProvidedRoles m) =
      specEffectiveRoles fetchRes (authProvidedRoles m) ∧
    (∀ (s : SocketId) (u : String) (rs : List String),
      Effect.sent s (Frame.authOk u rs) ∈
          (handleAuthW isOpen fetchRes freshUuid now sockIp sock m st).2 ↔
        (s = sock ∧ u = authUuid freshUuid m ∧
         rs = effectiveRolesCalc fetchRes (authProvidedRoles m) ∧ isOpen sock = true)) := by
  refine ⟨effectiveRolesCalc_eq_spec _ _, fun s u rs => ?_⟩
  unfold handleAuthW safeSendEffs broadcastEffs
  cases halk : alLookup sock st.conns with
  | none =>
      by_cases hopen : isOpen sock <;>
        simp [halk, hopen, List.mem_append, List.mem_filterMap,
          Option.ite_none_right_eq_some]
  | some prev =>
      by_cases hcond : prev.uuid ≠ "" ∧ prev.uuid ≠ authUuid freshUuid m <;>
        by_cases hopen : isOpen sock <;>
        simp [halk, hcond, hopen, List.mem_append, List.mem_filterMap,
          Option.ite_none_right_eq_some]


/-! ## Claim C10 — re-auth with the same uuid -/

theorem handleAuthW_markOffline_iff (isOpen : SocketId → Bool) (fetchRes : FetchRolesRes)
    (freshUuid : String) (now : Nat) (sockIp : Option String) (sock : SocketId)
    (m : AuthMsg) (st : GwState) (prev : ConnState)
    (hprev : alLookup sock st.conns = some prev) (u : String) :
    Effect.presenceMarkOffline u ∈
        (handleAuthW isOpen fetchRes freshUuid now sockIp sock m st).2 ↔
      (prev.uuid ≠ "" ∧ prev.uuid ≠ authUuid freshUuid m ∧ u = prev.uuid) := by
  unfold handleAuthW safeSendEffs broadcastEffs
  by_cases hcond : prev.uuid ≠ "" ∧ prev.uuid ≠ authUuid freshUuid m
  · by_cases hopen : isOpen sock <;>
      simp [hprev, hcond, hopen, hcond.1, hcond.2, List.mem_append, List.mem_filterMap,
        Option.ite_none_right_eq_some, and_assoc]
  · by_cases hopen : isOpen sock <;>
      simp [hprev, hcond, hopen, List.mem_append, List.mem_filterMap,
        Option.ite_none_right_eq_some] <;>
      exact fun h1 h2 => (hcond ⟨h1, h2⟩).elim

theorem handleAuthW_userLeave_broadcast_iff (isOpen : SocketId → Bool)
    (fetchRes : FetchRolesRes) (freshUuid : String) (now : Nat) (sockIp : Option String)
    (sock : SocketId) (m : AuthMsg) (st : GwState) (prev : ConnState)
    (hprev : alLookup sock st.conns = some prev) (u : String) :
    Effect.broadcast (Frame.userLeave u) ∈
        (handleAuthW isOpen fetchRes freshUuid now sockIp sock m st).2 ↔
      (prev.uuid ≠ "" ∧ prev.uuid ≠ authUuid freshUuid m ∧ u = prev.uuid) := by
  unfold handleAuthW safeSendEffs broadcastEffs
  by_cases hcond : prev.uuid ≠ "" ∧ prev.uuid ≠ authUuid freshUuid m
  · by_cases hopen : isOpen sock <;>
      simp [hprev, hcond, hopen, hcond.1, hcond.2, List.mem_append, List.mem_filterMap,
        Option.ite_none_right_eq_some, and_assoc]
  · by_cases hopen : isOpen sock <;>
      simp [hprev, hcond, hopen, List.mem_append, List.mem_filterMap,
        Option.ite_none_right_eq_some] <;>
      exact fun h1 h2 => (hcond ⟨h1, h2⟩).elim

theorem handleAuthW_userLeave_sent (isOpen : SocketId → Bool)
    (fetchRes : FetchRolesRes) (freshUuid : String) (now : Nat) (sockIp : Option String)
    (sock : SocketId) (m : AuthMsg) (st : GwState) (prev : ConnState)
    (hprev : alLookup sock st.conns = some prev) (s : SocketId) (u : String)
    (hmem : Effect.sent s (Frame.userLeave u) ∈
      (handleAuthW isOpen fetchRes freshUuid now sockIp sock m st).2) :
    prev.uuid ≠ "" ∧ prev.uuid ≠ authUuid freshUuid m ∧ u = prev.uuid := by
  unfold handleAuthW safeSendEffs broadcastEffs at hmem
  by_cases hcond : prev.uuid ≠ "" ∧ prev.uuid ≠ authUuid freshUuid m
  · refine ⟨hcond.1, hcond.2, ?_⟩
    by_cases hopen : isOpen sock <;>
      simp [hprev, hcond, hopen, List.mem_append, List.mem_filterMap,
        Option.ite_none_right_eq_some] at hmem <;>
      tauto
  · exfalso
    by_cases hopen : isOpen sock <;>
      simp [hprev, hcond, hopen, List.mem_append, List.mem_filterMap,
        Option.ite_none_right_eq_some] at hmem

/-- C10: a second auth on a registered socket resolving to the SAME uuid
performs no `markOffline` and broadcasts no `user.leave`; `markOffline`
of the previous uuid and the `user.leave` broadcast are emitted only when
the new auth's uuid differs from the registered (truthy) one. -/
theorem C10_reauth_markOffline_only_on_uuid_change (isOpen : SocketId → Bool)
    (fetchRes : FetchRolesRes) (freshUuid : String) (now : Nat) (sockIp : Option String)
    (sock : SocketId) (m : AuthMsg) (st : GwState) (prev : ConnState)
    (hprev : alLookup sock st.conns = some prev) :
    (prev.uuid = authUuid freshUuid m →
      (∀ u, Effect.presenceMarkOffline u ∉
        (handleAuthW isOpen fetchRes freshUuid now sockIp sock m st).2) ∧
      (∀ u, Effect.broadcast (Frame.userLeave u) ∉
        (handleAuthW isOpen fetchRes freshUuid now sockIp sock m st).2) ∧
      (∀ s u, Effect.sent s (Frame.userLeave u) ∉
        (handleAuthW isOpen fetchRes freshUuid now sockIp sock m st).2)) ∧
    (∀ u, Effect.presenceMarkOffline u ∈
        (handleAuthW isOpen fetchRes freshUuid now sockIp sock m st).2 →
      u = prev.uuid ∧ prev.uuid ≠ "" ∧ prev.uuid ≠ authUuid freshUuid m) ∧
    (∀ u, Effect.broadcast (Frame.userLeave u) ∈
        (handleAuthW isOpen fetchRes freshUuid now sockIp sock m st).2 →
      u = prev.uuid ∧ prev.uuid ≠ "" ∧ prev.uuid ≠ authUuid freshUuid m) ∧
    (prev.uuid ≠ "" → prev.uuid ≠ authUuid freshUuid m →
      Effect.presenceMarkOffline prev.uuid ∈
        (handleAuthW isOpen fetchRes freshUuid now sockIp sock m st).2 ∧
      Effect.broadcast (Frame.userLeave prev.uuid) ∈
        (handleAuthW isOpen fetchRes freshUuid now sockIp sock m st).2) := by
  refine ⟨fun hsame => ⟨fun u hmem => ?_, fun u hmem => ?_, fun s u hmem => ?_⟩,
    fun u hmem => ?_, fun u hmem => ?_, fun hne hdiff => ⟨?_, ?_⟩⟩
  · exact ((handleAuthW_markOffline_iff isOpen fetchRes freshUuid now sockIp sock m st
      prev hprev u).mp hmem).2.1 hsame
  · exact ((handleAuthW_userLeave_broadcast_iff isOpen fetchRes freshUuid now sockIp sock
      m st prev hprev u).mp hmem).2.1 hsame
  · exact (handleAuthW_userLeave_sent isOpen fetchRes freshUuid now sockIp sock m st
      prev hprev s u hmem).2.1 hsame
  · have h := (handleAuthW_markOffline_iff isOpen fetchRes freshUuid now sockIp sock m st
      prev hprev u).mp hmem
    exact ⟨h.2.2, h.1, h.2.1⟩
  · have h := (handleAuthW_userLeave_broadcast_iff isOpen fetchRes freshUuid now sockIp
      sock m st prev hprev u).mp hmem
    exact ⟨h.2.2, h.1, h.2.1⟩
  · exact (handleAuthW_markOffline_iff isOpen fetchRes freshUuid now sockIp sock m st
      prev hprev prev.uuid).mpr ⟨hne, hdiff, rfl⟩
  · exact (handleAuthW_userLeave_broadcast_iff isOpen fetchRes freshUuid now sockIp sock
      m st prev hprev prev.uuid).mpr ⟨hne, hdiff, rfl⟩

/-- C10 witness: on a concrete same-uuid re-auth no `markOffline` is
emitted, and on a concrete different-uuid re-auth the `markOffline` of
the previous uuid is emitted. -/
theorem C10_reauth_markOffline_only_on_uuid_change_witness :
    (Effect.presenceMarkOffline "u1" ∉
      (handleAuthW (fun _ => true) FetchRolesRes.missing "fresh" 5 none 0
        ⟨"u1", "Alice", "LOCAL", none⟩
        ⟨[(0, ⟨"u1", "Alice", ["MEMBER"], "LOCAL", 1, 1, 1, true, none⟩)]⟩).2) ∧
    (Effect.presenceMarkOffline "u1" ∈
      (handleAuthW (fun _ => true) FetchRolesRes.missing "fresh" 5 none 0
        ⟨"u2", "Alice", "LOCAL", none⟩
        ⟨[(0, ⟨"u1", "Alice", ["MEMBER"], "LOCAL", 1, 1, 1, true, none⟩)]⟩).2) :=
  ⟨(C10_reauth_markOffline_only_on_uuid_change (fun _ => true) FetchRolesRes.missing
      "fresh" 5 none 0 ⟨"u1", "Alice", "LOCAL", none⟩
      ⟨[(0, ⟨"u1", "Alice", ["MEMBER"], "LOCAL", 1, 1, 1, true, none⟩)]⟩
      ⟨"u1", "Alice", ["MEMBER"], "LOCAL", 1, 1, 1, true, none⟩ (by decide)).1
      (by decide) |>.1 "u1",
   ((C10_reauth_markOffline_only_on_uuid_change (fun _ => true) FetchRolesRes.missing
      "fresh" 5 none 0 ⟨"u2", "Alice", "LOCAL", none⟩
      ⟨[(0, ⟨"u1", "Alice", ["MEMBER"], "LOCAL", 1, 1, 1, true, none⟩)]⟩
      ⟨"u1", "Alice", ["MEMBER"], "LOCAL", 1, 1, 1, true, none⟩ (by decide)).2.2.2
      (by decide) (by decide)).1⟩

/-! ## Claim C5 — roles.update effects -/

/-- C5: after a `roles.update` frame with payload `rs` handled on a
registered socket, the registry entry's roles equal
`normalizeRoles(rs)`, the `updateRoles` presence call carries exactly
that uuid and normalized list (and no other `updateRoles` call is made),
and a `user.roles` frame with exactly those roles is broadcast, reaching
every open socket of the registry. -/
theorem C5_roles_update (ctx : MsgCtx) (sock : SocketId) (rs : List String)
    (st : GwState) (cs : ConnState) (hlook : alLookup sock st.conns = some cs) :
    alLookup sock (msgStep ctx sock (ClientMsg.rolesUpdate rs) st).1.conns =
      some { cs with roles := normalizeRolesStr rs, lastSeen := ctx.now2,
                     isAlive := true } ∧
    (∀ u rs2, Effect.presenceUpdateRoles u rs2 ∈
        (msgStep ctx sock (ClientMsg.rolesUpdate rs) st).2 ↔
      (u = cs.uuid ∧ rs2 = normalizeRolesStr rs)) ∧
    Effect.broadcast (Frame.userRoles cs.uuid (normalizeRolesStr rs)) ∈
      (msgStep ctx sock (ClientMsg.rolesUpdate rs) st).2 ∧
    (∀ s cs2, (s, cs2) ∈ (msgStep ctx sock (ClientMsg.rolesUpdate rs) st).1.conns →
      ctx.isOpen s = true →
      Effect.sent s (Frame.userRoles cs.uuid (normalizeRolesStr rs)) ∈
        (msgStep ctx sock (ClientMsg.rolesUpdate rs) st).2) := by
  have hstep : msgStep ctx sock (ClientMsg.rolesUpdate rs) st =
      (⟨alUpd sock (fun c => { c with lastSeen := ctx.now2, isAlive := true })
          (alUpd sock (fun c => { c with roles := normalizeRolesStr rs }) st.conns)⟩,
        Effect.presenceUpdateRoles cs.uuid (normalizeRolesStr rs) ::
          broadcastEffs ctx.isOpen
            (alUpd sock (fun c => { c with roles := normalizeRolesStr rs }) st.conns)
            (Frame.userRoles cs.uuid (normalizeRolesStr rs))) := by
    simp [msgStep, handleRolesUpdateW, hlook]
  rw [hstep]
  refine ⟨?_, ?_, ?_, ?_⟩
  · simp [alLookup_alUpd, hlook]
  · intro u rs2
    simp [broadcastEffs, List.mem_filterMap, Option.ite_none_right_eq_some]
  · simp [broadcastEffs]
  · intro s cs2 hmem hopen
    dsimp only at hmem
    rcases mem_alUpd hmem with ⟨e₀, he₀, hcase⟩
    have hs : s = e₀.1 := by
      rcases hcase with h | h <;> exact congrArg Prod.fst h
    subst hs
    refine List.mem_cons_of_mem _ ?_
    refine List.mem_cons_of_mem _ ?_
    exact List.mem_filterMap.mpr ⟨e₀, he₀, by simp [hopen]⟩

/-- C5 witness: a concrete roles.update stores and fans out the
normalized payload. -/
theorem C5_roles_update_witness :
    alLookup 0 ((msgStep ⟨fun _ => true, FetchRolesRes.missing, "f", none, 7, 8⟩ 0
        (ClientMsg.rolesUpdate ["GOLD", "MEMBER", "MEMBER"])
        ⟨[(0, ⟨"a1", "Alice", ["MEMBER"], "LOCAL", 1, 1, 1, true, none⟩)]⟩).1.conns) =
      some ⟨"a1", "Alice", ["GOLD", "MEMBER"], "LOCAL", 8, 1, 1, true, none⟩ ∧
    Effect.broadcast (Frame.userRoles "a1" ["GOLD", "MEMBER"]) ∈
      (msgStep ⟨fun _ => true, FetchRolesRes.missing, "f", none, 7, 8⟩ 0
        (ClientMsg.rolesUpdate ["GOLD", "MEMBER", "MEMBER"])
        ⟨[(0, ⟨"a1", "Alice", ["MEMBER"], "LOCAL", 1, 1, 1, true, none⟩)]⟩).2 := by
  have h := C5_roles_update ⟨fun _ => true, FetchRolesRes.missing, "f", none, 7, 8⟩ 0
    ["GOLD", "MEMBER", "MEMBER"]
    ⟨[(0, ⟨"a1", "Alice", ["MEMBER"], "LOCAL", 1, 1, 1, true, none⟩)]⟩
    ⟨"a1", "Alice", ["MEMBER"], "LOCAL", 1, 1, 1, true, none⟩ (by decide)
  refine ⟨?_, ?_⟩
  · rw [h.1]
    decide
  · have hb := h.2.2.1
    have hnr : normalizeRolesStr ["GOLD", "MEMBER", "MEMBER"] = ["GOLD", "MEMBER"] := by
      decide
    rw [hnr] at hb
    exact hb

/-! ## Claim C6 — rate limiter scope -/

theorem wsUpgradeStatus_ne_429 (req : HttpReq) : wsUpgradeStatus req ≠ 429 := by
  unfold wsUpgradeStatus
  split
  · decide
  · split
    · split <;> decide
    · decide

/-- C6, counterexample: with `RATE_LIMIT_MAX = 1`, the second
`GET /v1/health` from the same IP inside one window is answered 429 —
the gate runs before the health branch, so health is not exempt. -/
theorem C6_health_rate_limited_counterexample :
    (handleRequestW ⟨"/websocket", "changeme-admin-key", 30000, 120000, 1000, 1⟩
        ⟨true, Except.ok [], none⟩ 0 (some "1.2.3.4")
        ⟨"GET", "/v1/health", none, none, none⟩ (fun _ => true) ⟨[]⟩ []).status = 200 ∧
    (handleRequestW ⟨"/websocket", "changeme-admin-key", 30000, 120000, 1000, 1⟩
        ⟨true, Except.ok [], none⟩ 1 (some "1.2.3.4")
        ⟨"GET", "/v1/health", none, none, none⟩ (fun _ => true) ⟨[]⟩
        (handleRequestW ⟨"/websocket", "changeme-admin-key", 30000, 120000, 1000, 1⟩
          ⟨true, Except.ok [], none⟩ 0 (some "1.2.3.4")
          ⟨"GET", "/v1/health", none, none, none⟩ (fun _ => true) ⟨[]⟩ []).rl).status =
      429 := by
  constructor
  · decide
  · decide

/-- C6, amended: the rate-limiter gate is applied to every non-preflight
request that is not the WebSocket upgrade — including `GET /v1/health` —
while a WS-upgrade request is never answered 429; any gated request from
an IP whose bucket is at the limit inside the current window is answered
429. -/
theorem C6_rate_limit_scope_amended :
    (∀ (cfg : Config) (o : HttpOracles) (now : Nat) (ip : Option String)
       (req : HttpReq) (isOpen : SocketId → Bool) (st : GwState) (rl : RLState),
      req.path = cfg.wsPath → req.upgradeHeader = some "websocket" →
      (handleRequestW cfg o now ip req isOpen st rl).status ≠ 429) ∧
    (∀ (cfg : Config) (o : HttpOracles) (now : Nat) (ip : Option String)
       (req : HttpReq) (isOpen : SocketId → Bool) (st : GwState) (rl : RLState)
       (b : RLBucket),
      req.method ≠ "OPTIONS" →
      ¬(req.path = cfg.wsPath ∧ req.upgradeHeader = some "websocket") →
      rlLookup (ip.getD "unknown") rl = some b →
      ¬ b.resetAt < now → cfg.maxReq ≤ b.count →
      (handleRequestW cfg o now ip req isOpen st rl).status = 429) := by
  constructor
  · intro cfg o now ip req isOpen st rl hpath hupg
    unfold handleRequestW
    by_cases hopt : req.method = "OPTIONS"
    · simp [hopt]
    · simp [hopt, hpath, hupg, wsUpgradeStatus_ne_429]
  · intro cfg o now ip req isOpen st rl b hopt hupg hb hreset hcount
    have hlim : isRateLimited cfg ip now rl = (true, rl) := by
      unfold isRateLimited
      simp [hb, hreset, hcount]
    unfold handleRequestW
    simp [hopt, hupg, hlim]

/-- C6 witness: the amended theorem applied at concrete inputs: an
at-limit bucket turns a health request into a 429, and a WS upgrade is
never 429. -/
theorem C6_rate_limit_scope_amended_witness :
    (handleRequestW ⟨"/websocket", "k0", 30000, 120000, 1000, 1⟩
        ⟨true, Except.ok [], none⟩ 3 (some "9.9.9.9")
        ⟨"GET", "/websocket", some "websocket", none, none⟩ (fun _ => true) ⟨[]⟩
        []).status ≠ 429 ∧
    (handleRequestW ⟨"/websocket", "k0", 30000, 120000, 1000, 1⟩
        ⟨true, Except.ok [], none⟩ 3 (some "9.9.9.9")
        ⟨"GET", "/v1/health", none, none, none⟩ (fun _ => true) ⟨[]⟩
        [("9.9.9.9", ⟨1, 1000⟩)]).status = 429 :=
  ⟨C6_rate_limit_scope_amended.1 _ _ 3 (some "9.9.9.9")
      ⟨"GET", "/websocket", some "websocket", none, none⟩ (fun _ => true) ⟨[]⟩ []
      rfl rfl,
   C6_rate_limit_scope_amended.2 _ _ 3 (some "9.9.9.9")
      ⟨"GET", "/v1/health", none, none, none⟩ (fun _ => true) ⟨[]⟩
      [("9.9.9.9", ⟨1, 1000⟩)] ⟨1, 1000⟩ (by decide) (by decide) (by decide)
      (by decide) (by decide)⟩

/-! ## Claim C7 — admin endpoints without a matching key -/

/-- C7, counterexample: the legacy `createGateway` variant
(`src/gateway.ts`, cited by the claim) registers `GET /v1/connected-users`
WITHOUT any admin-key check: with a non-matching `x-admin-key` it answers
200 and returns the projected user list instead of 401. -/
theorem C7_admin_auth_counterexample :
    (legacyConnectedUsersRoute
        ⟨"GET", "/v1/connected-users", none, some "wrong-key", none⟩
        ⟨[(0, ⟨"u1", "Alice", ["MEMBER"], "LOCAL", 3, 1, 1, true, none⟩)]⟩).1 = 200 ∧
    (legacyConnectedUsersRoute
        ⟨"GET", "/v1/connected-users", none, some "wrong-key", none⟩
        ⟨[(0, ⟨"u1", "Alice", ["MEMBER"], "LOCAL", 3, 1, 1, true, none⟩)]⟩).2 =
      [⟨"u1", "Alice", "LOCAL", 3, ["MEMBER"]⟩] ∧
    (200 : Nat) ≠ 401 := by
  refine ⟨rfl, rfl, by decide⟩

/-- C7, amended: in the modular Worker gateway, every non-rate-limited
request to `GET /v1/connected-users` or `POST /v1/broadcast` whose
`x-admin-key` header does not equal the configured key exactly is
answered 401 with no broadcast, no presence-store call and an unchanged
registry; in the legacy `createGateway` this holds for `POST
/v1/broadcast`, while `GET /v1/connected-users` performs no key check at
all (see the counterexample). -/
theorem C7_admin_auth_amended :
    (∀ (cfg : Config) (o : HttpOracles) (now : Nat) (ip : Option String)
       (req : HttpReq) (isOpen : SocketId → Bool) (st : GwState) (rl : RLState),
      ((req.path = "/v1/connected-users" ∧ req.method = "GET") ∨
       (req.path = "/v1/broadcast" ∧ req.method = "POST")) →
      ¬(req.path = cfg.wsPath ∧ req.upgradeHeader = some "websocket") →
      (isRateLimited cfg ip now rl).1 = false →
      isAuthorizedReq cfg req = false →
      (handleRequestW cfg o now ip req isOpen st rl).status = 401 ∧
      (handleRequestW cfg o now ip req isOpen st rl).effects = [] ∧
      (handleRequestW cfg o now ip req isOpen st rl).st = st) ∧
    (∀ (cfg : Config) (req : HttpReq) (body : Option JsonVal)
       (isOpen : SocketId → Bool) (clients : List SocketId),
      (req.adminKeyHeader.getD "") ≠ cfg.adminKey →
      legacyBroadcastRoute cfg req body isOpen clients = (401, [])) := by
  constructor
  · intro cfg o now ip req isOpen st rl hend hupg hlim hauth
    rcases hend with ⟨hpath, hmeth⟩ | ⟨hpath, hmeth⟩ <;>
      rw [hpath] at hupg <;>
      unfold handleRequestW <;>
      simp [hpath, hmeth, hupg, hlim, hauth]
  · intro cfg req body isOpen clients hkey
    unfold legacyBroadcastRoute
    simp [hkey]

/-- C7 witness: the amended theorem applied at concrete inputs. -/
theorem C7_admin_auth_amended_witness :
    (handleRequestW ⟨"/websocket", "real-admin-key-123", 30000, 120000, 15000, 100⟩
        ⟨true, Except.ok [], none⟩ 0 (some "1.1.1.1")
        ⟨"GET", "/v1/connected-users", none, some "wrong", none⟩ (fun _ => true)
        ⟨[(0, ⟨"u1", "Alice", ["MEMBER"], "LOCAL", 3, 1, 1, true, none⟩)]⟩ []).status =
      401 ∧
    legacyBroadcastRoute ⟨"/websocket", "real-admin-key-123", 30000, 120000, 15000, 100⟩
        ⟨"POST", "/v1/broadcast", none, some "wrong", none⟩
        (some (JsonVal.obj [("type", JsonVal.str "banner")])) (fun _ => true) [0] =
      (401, []) :=
  ⟨(C7_admin_auth_amended.1 ⟨"/websocket", "real-admin-key-123", 30000, 120000, 15000, 100⟩
      ⟨true, Except.ok [], none⟩ 0 (some "1.1.1.1")
      ⟨"GET", "/v1/connected-users", none, some "wrong", none⟩ (fun _ => true)
      ⟨[(0, ⟨"u1", "Alice", ["MEMBER"], "LOCAL", 3, 1, 1, true, none⟩)]⟩ []
      (Or.inl ⟨rfl, rfl⟩) (by decide) (by decide) (by decide)).1,
   C7_admin_auth_amended.2 ⟨"/websocket", "real-admin-key-123", 30000, 120000, 15000, 100⟩
      ⟨"POST", "/v1/broadcast", none, some "wrong", none⟩
      (some (JsonVal.obj [("type", JsonVal.str "banner")])) (fun _ => true) [0]
      (by decide)⟩

/-! ## Claim C3 — markOnline with omitted roles_to_persist -/

theorem fsLookup_fsSet_self (uuid : String) (u : FsUser) :
    ∀ (store : FsStore), fsLookup uuid (fsSet uuid u store) = some u
  | [] => by simp [fsSet, fsLookup]
  | e :: es => by
      by_cases h : e.1 = uuid
      · simp [fsSet, fsLookup, h]
      · simp [fsSet, fsLookup, h, fsLookup_fsSet_self uuid u es]

theorem filterMap_str_map (rs : List String) :
    (rs.map JsonVal.str).filterMap (fun v => match v with
      | JsonVal.str s => some s
      | _ => none) = rs := by
  induction rs with
  | nil => rfl
  | cons r rest ih => simp [List.filterMap_cons, ih]

theorem filterMap_str_comp (rs : List String) :
    rs.filterMap ((fun v => match v with
      | JsonVal.str s => some s
      | _ => none) ∘ JsonVal.str) = rs := by
  induction rs with
  | nil => rfl
  | cons r rest ih => simp [List.filterMap_cons, ih, Function.comp]

/-- The roles the Node auth flow's `markOnline` call writes, and the
argument it passes, when the store already holds roles. -/
theorem nodeAuthPresence_store_roles (store : FsStore) (uuid name acct : String)
    (provided : List String) (now : String) (u : FsUser) (rs : List String)
    (hu : fsLookup uuid store = some u)
    (hroles : u.rolesF = some (rs.map JsonVal.str))
    (hne : rs ≠ [])
    (hnorm : normalizeRolesStr rs ≠ []) :
    (nodeAuthPresence now uuid name acct provided store).2.1 = none ∧
    (fsLookup uuid (nodeAuthPresence now uuid name acct provided store).1).map
        (fun d => d.rolesF) =
      some (some ((normalizeRolesStr rs).map JsonVal.str)) := by
  have hfetch : fetchRoles uuid store = some rs := by
    have hx : ∃ x, x ∈ rs := by
      cases rs with
      | nil => exact absurd rfl hne
      | cons a l => exact ⟨a, List.mem_cons_self a l⟩
    simp [fetchRoles, hu, hroles, filterMap_str_comp, hx, hne]
  constructor
  · unfold nodeAuthPresence
    rw [hfetch]
    simp [hne, hnorm]
  · unfold nodeAuthPresence markOnline
    rw [hfetch]
    simp only [hne, hnorm, reduceIte, ne_eq, not_false_iff, if_true, if_false]
    rw [fsLookup_fsSet_self]
    simp [hne, hnorm]

/-- C3, counterexample: the store holds non-empty roles `["staff"]` for
`u1`; the auth handler omits `roles_to_persist` (the store roles are
non-empty), yet the upsert REPLACES the stored roles field with the
normalization `["STAFF"]` — the field is not preserved unchanged. -/
theorem C3_markOnline_counterexample :
    (nodeAuthPresence "T1" "u1" "Bob" "LOCAL" []
        [("u1", ⟨none, none, none, none, none, none,
          some [JsonVal.str "staff"]⟩)]).2.1 = none ∧
    (fsLookup "u1" (nodeAuthPresence "T1" "u1" "Bob" "LOCAL" []
        [("u1", ⟨none, none, none, none, none, none,
          some [JsonVal.str "staff"]⟩)]).1).map (fun d => d.rolesF) =
      some (some [JsonVal.str "STAFF"]) ∧
    (some [JsonVal.str "STAFF"] : Option (List JsonVal)) ≠
      some [JsonVal.str "staff"] := by
  refine ⟨by decide, by decide, by decide⟩

/-- C3, amended: `markOnline` includes a roles field in the upsert payload
on every call — `rolesToPersist ?? record.roles ?? []` — so an omitted
`roles_to_persist` writes `record.roles`.  In the auth handler's
omitted-argument calls `record.roles` is the normalization of the store's
non-empty roles, so the stored roles field is replaced by its
normalization: preserved exactly when the stored roles are already
normalized. -/
theorem C3_markOnline_amended (store : FsStore) (uuid name acct : String)
    (provided : List String) (now : String) (u : FsUser) (rs : List String)
    (hu : fsLookup uuid store = some u)
    (hroles : u.rolesF = some (rs.map JsonVal.str))
    (hne : rs ≠ [])
    (hnorm : normalizeRolesStr rs ≠ []) :
    (nodeAuthPresence now uuid name acct provided store).2.1 = none ∧
    (fsLookup uuid (nodeAuthPresence now uuid name acct provided store).1).map
        (fun d => d.rolesF) =
      some (some ((normalizeRolesStr rs).map JsonVal.str)) ∧
    (normalizeRolesStr rs = rs →
      (fsLookup uuid (nodeAuthPresence now uuid name acct provided store).1).map
          (fun d => d.rolesF) = some u.rolesF) := by
  obtain ⟨h1, h2⟩ :=
    nodeAuthPresence_store_roles store uuid name acct provided now u rs hu hroles hne hnorm
  refine ⟨h1, h2, fun hfix => ?_⟩
  rw [h2, hroles, hfix]

/-- C3 witness: with already-normalized store roles `["STAFF"]` the
argument is omitted and the roles field is preserved. -/
theorem C3_markOnline_amended_witness :
    (nodeAuthPresence "T2" "u9" "Eve" "LOCAL" ["GOLD"]
        [("u9", ⟨none, none, none, none, none, none,
          some [JsonVal.str "STAFF"]⟩)]).2.1 = none ∧
    (fsLookup "u9" (nodeAuthPresence "T2" "u9" "Eve" "LOCAL" ["GOLD"]
        [("u9", ⟨none, none, none, none, none, none,
          some [JsonVal.str "STAFF"]⟩)]).1).map (fun d => d.rolesF) =
      some (some [JsonVal.str "STAFF"]) := by
  have h := C3_markOnline_amended
    [("u9", ⟨none, none, none, none, none, none, some [JsonVal.str "STAFF"]⟩)]
    "u9" "Eve" "LOCAL" ["GOLD"] "T2"
    ⟨none, none, none, none, none, none, some [JsonVal.str "STAFF"]⟩
    ["STAFF"] (by decide) (by decide) (by decide) (by decide)
  exact ⟨h.1, by simpa using h.2.2 (by decide)⟩

/-! ## Claim C4 — heartbeat inactivity eviction -/

theorem hbEntry_effects_mono (isOpen sendFails : SocketId → Bool)
    (now tickEvery offlineAfter : Nat)
    (acc : List (SocketId × ConnState) × List Effect) (e : SocketId × ConnState)
    {x : Effect} (h : x ∈ acc.2) :
    x ∈ (hbEntry isOpen sendFails now tickEvery offlineAfter acc e).2 := by
  unfold hbEntry cleanupConnection
  split
  · simpa using Or.inl h
  · split
    · simpa using Or.inl h
    · split
      · split
        · simpa using Or.inl h
        · simpa using Or.inl h
      · exact h

theorem hb_foldl_effects_mono (isOpen sendFails : SocketId → Bool)
    (now tickEvery offlineAfter : Nat) :
    ∀ (l : List (SocketId × ConnState)) (acc : List (SocketId × ConnState) × List Effect)
      {x : Effect}, x ∈ acc.2 →
      x ∈ (l.foldl (hbEntry isOpen sendFails now tickEvery offlineAfter) acc).2
  | [], acc, x, h => h
  | e :: es, acc, x, h =>
      hb_foldl_effects_mono isOpen sendFails now tickEvery offlineAfter es _
        (hbEntry_effects_mono isOpen sendFails now tickEvery offlineAfter acc e h)

theorem hbEntry_lookup_none (isOpen sendFails : SocketId → Bool)
    (now tickEvery offlineAfter : Nat) (sock : SocketId)
    (acc : List (SocketId × ConnState) × List Effect) (e : SocketId × ConnState)
    (h : alLookup sock acc.1 = none) :
    alLookup sock (hbEntry isOpen sendFails now tickEvery offlineAfter acc e).1 = none := by
  unfold hbEntry cleanupConnection
  split
  · simpa using alLookup_alRemove_none sock e.1 acc.1 h
  · split
    · simpa using alLookup_alRemove_none sock e.1 acc.1 h
    · split
      · split
        · simpa using alLookup_alRemove_none sock e.1 acc.1 h
        · simpa using alLookup_alUpd_none sock e.1 _ acc.1 h
      · exact h

theorem hb_foldl_lookup_none (isOpen sendFails : SocketId → Bool)
    (now tickEvery offlineAfter : Nat) (sock : SocketId) :
    ∀ (l : List (SocketId × ConnState)) (acc : List (SocketId × ConnState) × List Effect),
      alLookup sock acc.1 = none →
      alLookup sock
        ((l.foldl (hbEntry isOpen sendFails now tickEvery offlineAfter) acc)).1 = none
  | [], acc, h => h
  | e :: es, acc, h =>
      hb_foldl_lookup_none isOpen sendFails now tickEvery offlineAfter sock es _
        (hbEntry_lookup_none isOpen sendFails now tickEvery offlineAfter sock acc e h)

theorem hb_foldl_evict (isOpen sendFails : SocketId → Bool)
    (now tickEvery offlineAfter : Nat) (sock : SocketId) (cs : ConnState)
    (hopen : isOpen sock = true) (hlag : offlineAfter < now - cs.lastSeen) :
    ∀ (l : List (SocketId × ConnState)) (acc : List (SocketId × ConnState) × List Effect),
      (sock, cs) ∈ l →
      Effect.presenceMarkOffline cs.uuid ∈
        (l.foldl (hbEntry isOpen sendFails now tickEvery offlineAfter) acc).2 ∧
      Effect.broadcast (Frame.userLeave cs.uuid) ∈
        (l.foldl (hbEntry isOpen sendFails now tickEvery offlineAfter) acc).2 ∧
      Effect.closed sock 4400 "inactivity_timeout" ∈
        (l.foldl (hbEntry isOpen sendFails now tickEvery offlineAfter) acc).2 ∧
      alLookup sock
        (l.foldl (hbEntry isOpen sendFails now tickEvery offlineAfter) acc).1 = none := by
  intro l
  induction l with
  | nil => intro acc h; cases h
  | cons e es ih =>
      intro acc hmem
      rcases List.mem_cons.mp hmem with heq | htail
      · subst heq
        have hstep : hbEntry isOpen sendFails now tickEvery offlineAfter acc (sock, cs) =
            (alRemove sock acc.1,
              acc.2 ++ (Effect.presenceMarkOffline cs.uuid ::
                broadcastEffs isOpen (alRemove sock acc.1) (Frame.userLeave cs.uuid) ++
                [Effect.closed sock 4400 "inactivity_timeout"])) := by
          unfold hbEntry cleanupConnection
          simp [hopen, hlag]
        rw [List.foldl_cons, hstep]
        have hmo : Effect.presenceMarkOffline cs.uuid ∈
            (acc.2 ++ (Effect.presenceMarkOffline cs.uuid ::
              broadcastEffs isOpen (alRemove sock acc.1) (Frame.userLeave cs.uuid) ++
              [Effect.closed sock 4400 "inactivity_timeout"])) := by
          simp
        have hbc : Effect.broadcast (Frame.userLeave cs.uuid) ∈
            (acc.2 ++ (Effect.presenceMarkOffline cs.uuid ::
              broadcastEffs isOpen (alRemove sock acc.1) (Frame.userLeave cs.uuid) ++
              [Effect.closed sock 4400 "inactivity_timeout"])) := by
          simp [broadcastEffs]
        have hcl : Effect.closed sock 4400 "inactivity_timeout" ∈
            (acc.2 ++ (Effect.presenceMarkOffline cs.uuid ::
              broadcastEffs isOpen (alRemove sock acc.1) (Frame.userLeave cs.uuid) ++
              [Effect.closed sock 4400 "inactivity_timeout"])) := by
          simp
        refine ⟨hb_foldl_effects_mono _ _ _ _ _ es _ hmo,
          hb_foldl_effects_mono _ _ _ _ _ es _ hbc,
          hb_foldl_effects_mono _ _ _ _ _ es _ hcl,
          hb_foldl_lookup_none _ _ _ _ _ sock es _ ?_⟩
        exact alLookup_alRemove_self sock acc.1
      · exact ih _ htail

/-- C4: a heartbeat tick evicts every registered entry whose socket is
OPEN and whose `last_seen` lags `now` by more than `offline_after`: it is
removed from the registry, `markOffline` is attempted, `user.leave` is
broadcast, and the socket is closed with code 4400 and reason
`inactivity_timeout`.  (The timer fires every `tickEvery` ms, so such a
socket is evicted within one heartbeat period of real time; the timer
itself lives outside the embedding.) -/
theorem C4_heartbeat_inactivity_eviction (hbInterval offlineAfter : Nat)
    (isOpen sendFails : SocketId → Bool) (now : Nat) (st : GwState)
    (sock : SocketId) (cs : ConnState)
    (hmem : (sock, cs) ∈ st.conns)
    (hopen : isOpen sock = true)
    (hlag : offlineAfter < now - cs.lastSeen) :
    alLookup sock
      (heartbeatTick hbInterval offlineAfter isOpen sendFails now st).1.conns = none ∧
    Effect.presenceMarkOffline cs.uuid ∈
      (heartbeatTick hbInterval offlineAfter isOpen sendFails now st).2 ∧
    Effect.broadcast (Frame.userLeave cs.uuid) ∈
      (heartbeatTick hbInterval offlineAfter isOpen sendFails now st).2 ∧
    Effect.closed sock 4400 "inactivity_timeout" ∈
      (heartbeatTick hbInterval offlineAfter isOpen sendFails now st).2 := by
  have h := hb_foldl_evict isOpen sendFails now (max 5000 (min hbInterval 10000))
    offlineAfter sock cs hopen hlag st.conns (st.conns, []) hmem
  exact ⟨h.2.2.2, h.1, h.2.1, h.2.2.1⟩

/-- C4 witness: a concrete open socket idle for longer than
`offline_after` is evicted with code 4400 by the next tick. -/
theorem C4_heartbeat_inactivity_eviction_witness :
    alLookup 0 ((heartbeatTick 30000 120000 (fun _ => true) (fun _ => false) 200000
      ⟨[(0, ⟨"u1", "Alice", ["MEMBER"], "LOCAL", 0, 0, 0, true, none⟩)]⟩).1.conns) =
      none ∧
    Effect.closed 0 4400 "inactivity_timeout" ∈
      (heartbeatTick 30000 120000 (fun _ => true) (fun _ => false) 200000
        ⟨[(0, ⟨"u1", "Alice", ["MEMBER"], "LOCAL", 0, 0, 0, true, none⟩)]⟩).2 := by
  have h := C4_heartbeat_inactivity_eviction 30000 120000 (fun _ => true) (fun _ => false)
    200000 ⟨[(0, ⟨"u1", "Alice", ["MEMBER"], "LOCAL", 0, 0, 0, true, none⟩)]⟩ 0
    ⟨"u1", "Alice", ["MEMBER"], "LOCAL", 0, 0, 0, true, none⟩
    (by decide) (by decide) (by decide)
  exact ⟨h.1, h.2.2.2⟩

/-! ## Claim C1 — verification tick on fetch failure -/

theorem byUuidLookup_nil (u : String) : byUuidLookup [] u = none := rfl

theorem verifyEntry_effects_mono (isOpen : SocketId → Bool)
    (byUuid : String → Option PresSnap)
    (acc : List (SocketId × ConnState) × List Effect) (e : SocketId × ConnState)
    {x : Effect} (h : x ∈ acc.2) :
    x ∈ (verifyEntry isOpen byUuid acc e).2 := by
  unfold verifyEntry cleanupConnection
  split
  · simpa using Or.inl h
  · split
    · simpa using Or.inl h
    · split
      · simpa using Or.inl h
      · split
        · simpa using Or.inl h
        · simpa using Or.inl h

theorem verify_foldl_effects_mono (isOpen : SocketId → Bool)
    (byUuid : String → Option PresSnap) :
    ∀ (l : List (SocketId × ConnState)) (acc : List (SocketId × ConnState) × List Effect)
      {x : Effect}, x ∈ acc.2 → x ∈ (l.foldl (verifyEntry isOpen byUuid) acc).2
  | [], _, _, h => h
  | e :: es, acc, x, h =>
      verify_foldl_effects_mono isOpen byUuid es _
        (verifyEntry_effects_mono isOpen byUuid acc e h)

/-- With an empty snapshot every entry takes a cleanup branch, so the
accumulated registry only shrinks: a member of the result was a member of
the input registry and its key matches no processed entry. -/
theorem verify_foldl_fail_subset (isOpen : SocketId → Bool) :
    ∀ (l : List (SocketId × ConnState)) (acc : List (SocketId × ConnState) × List Effect)
      (x : SocketId × ConnState),
      x ∈ (l.foldl (verifyEntry isOpen (byUuidLookup [])) acc).1 →
      x ∈ acc.1 ∧ ∀ e ∈ l, e.1 ≠ x.1
  | [], acc, x, h => ⟨h, by simp⟩
  | e :: es, acc, x, h => by
      have hstep : ∀ acc2 : List (SocketId × ConnState) × List Effect,
          (verifyEntry isOpen (byUuidLookup []) acc2 e).1 = alRemove e.1 acc2.1 := by
        intro acc2
        unfold verifyEntry cleanupConnection
        split
        · simp
        · simp [byUuidLookup_nil]
      have hrec := verify_foldl_fail_subset isOpen es
        (verifyEntry isOpen (byUuidLookup []) acc e) x h
      rw [hstep acc] at hrec
      refine ⟨mem_alRemove hrec.1, ?_⟩
      intro e2 he2
      rcases List.mem_cons.mp he2 with he2 | he2
      · rw [he2]
        have hne : x.1 ≠ e.1 := by
          simpa using (List.mem_filter.mp hrec.1).2
        exact fun hc => hne hc.symm
      · exact hrec.2 e2 he2

/-- With an empty snapshot every entry of the snapshot registry is
evicted: `markOffline`, a `user.leave` broadcast, and a close (4403 for
open sockets, 4401 for non-open ones) are all emitted. -/
theorem verify_foldl_fail_evict (isOpen : SocketId → Bool) :
    ∀ (l : List (SocketId × ConnState)) (acc : List (SocketId × ConnState) × List Effect)
      (e : SocketId × ConnState), e ∈ l →
      Effect.presenceMarkOffline e.2.uuid ∈
        (l.foldl (verifyEntry isOpen (byUuidLookup [])) acc).2 ∧
      Effect.broadcast (Frame.userLeave e.2.uuid) ∈
        (l.foldl (verifyEntry isOpen (byUuidLookup [])) acc).2 ∧
      (isOpen e.1 = true →
        Effect.closed e.1 4403 "verification_d1_offline" ∈
          (l.foldl (verifyEntry isOpen (byUuidLookup [])) acc).2) ∧
      (isOpen e.1 = false →
        Effect.closed e.1 4401 "verification_socket_not_open" ∈
          (l.foldl (verifyEntry isOpen (byUuidLookup [])) acc).2) := by
  intro l
  induction l with
  | nil => intro acc e h; cases h
  | cons e0 es ih =>
      intro acc e hmem
      rcases List.mem_cons.mp hmem with heq | htail
      · subst heq
        by_cases hopen : isOpen e.1 = true
        · have hstep : verifyEntry isOpen (byUuidLookup []) acc e =
              (alRemove e.1 acc.1,
                acc.2 ++ (Effect.presenceMarkOffline e.2.uuid ::
                  broadcastEffs isOpen (alRemove e.1 acc.1) (Frame.userLeave e.2.uuid) ++
                  [Effect.closed e.1 4403 "verification_d1_offline"])) := by
            unfold verifyEntry cleanupConnection
            simp [hopen, byUuidLookup_nil]
          rw [List.foldl_cons, hstep]
          refine ⟨verify_foldl_effects_mono _ _ es _ (by simp),
            verify_foldl_effects_mono _ _ es _ (by simp [broadcastEffs]),
            fun _ => verify_foldl_effects_mono _ _ es _ (by simp),
            fun hc => absurd hopen (by simp [hc])⟩
        · have hopenf : isOpen e.1 = false := by
            cases h : isOpen e.1
            · rfl
            · exact absurd h hopen
          have hstep : verifyEntry isOpen (byUuidLookup []) acc e =
              (alRemove e.1 acc.1,
                acc.2 ++ (Effect.presenceMarkOffline e.2.uuid ::
                  broadcastEffs isOpen (alRemove e.1 acc.1) (Frame.userLeave e.2.uuid) ++
                  [Effect.closed e.1 4401 "verification_socket_not_open"])) := by
            unfold verifyEntry cleanupConnection
            simp [hopenf]
          rw [List.foldl_cons, hstep]
          refine ⟨verify_foldl_effects_mono _ _ es _ (by simp),
            verify_foldl_effects_mono _ _ es _ (by simp [broadcastEffs]),
            fun hc => absurd hc hopen,
            fun _ => verify_foldl_effects_mono _ _ es _ (by simp)⟩
      · exact ih _ e htail

/-- C1, counterexample: a verification tick whose `fetchOnlineUsers` call
FAILS does not skip the tick — the failure is caught and replaced by an
empty snapshot (`.catch(() => [])`), so the one registered open
connection is evicted: the registry is emptied, `markOffline` is called,
`user.leave` is broadcast and the socket is closed 4403. -/
theorem C1_verification_failure_counterexample :
    (verifyTickW (fun _ => true) (Except.error ())
      ⟨[(0, ⟨"u1", "Alice", ["MEMBER"], "LOCAL", 5, 1, 1, true, none⟩)]⟩).1.conns = [] ∧
    Effect.presenceMarkOffline "u1" ∈
      (verifyTickW (fun _ => true) (Except.error ())
        ⟨[(0, ⟨"u1", "Alice", ["MEMBER"], "LOCAL", 5, 1, 1, true, none⟩)]⟩).2 ∧
    Effect.broadcast (Frame.userLeave "u1") ∈
      (verifyTickW (fun _ => true) (Except.error ())
        ⟨[(0, ⟨"u1", "Alice", ["MEMBER"], "LOCAL", 5, 1, 1, true, none⟩)]⟩).2 ∧
    Effect.closed 0 4403 "verification_d1_offline" ∈
      (verifyTickW (fun _ => true) (Except.error ())
        ⟨[(0, ⟨"u1", "Alice", ["MEMBER"], "LOCAL", 5, 1, 1, true, none⟩)]⟩).2 := by
  refine ⟨by decide, by decide, by decide, by decide⟩

/-- C1, amended: when `fetchOnlineUsers` fails, the verification tick is
NOT skipped: the catch substitutes an empty snapshot and the tick runs
against it, evicting every entry of the registry — the registry is left
empty, and for each entry `markOffline` is attempted, `user.leave` is
broadcast, and the socket is closed (4403 `verification_d1_offline` when
open, 4401 `verification_socket_not_open` otherwise). -/
theorem C1_verification_failure_amended (isOpen : SocketId → Bool) (st : GwState) :
    (verifyTickW isOpen (Except.error ()) st).1.conns = [] ∧
    ∀ e ∈ st.conns,
      Effect.presenceMarkOffline e.2.uuid ∈ (verifyTickW isOpen (Except.error ()) st).2 ∧
      Effect.broadcast (Frame.userLeave e.2.uuid) ∈
        (verifyTickW isOpen (Except.error ()) st).2 ∧
      (isOpen e.1 = true →
        Effect.closed e.1 4403 "verification_d1_offline" ∈
          (verifyTickW isOpen (Except.error ()) st).2) ∧
      (isOpen e.1 = false →
        Effect.closed e.1 4401 "verification_socket_not_open" ∈
          (verifyTickW isOpen (Except.error ()) st).2) := by
  constructor
  · rcases hres : (verifyTickW isOpen (Except.error ()) st).1.conns with _ | ⟨x, rest⟩
    · rfl
    · exfalso
      have hx : x ∈ (verifyTickW isOpen (Except.error ()) st).1.conns := by
        rw [hres]; exact List.mem_cons_self x rest
      unfold verifyTickW at hx
      have h := verify_foldl_fail_subset isOpen st.conns
        (st.conns, [Effect.presenceFetchOnline (max 100 st.conns.length)]) x hx
      exact h.2 x h.1 rfl
  · intro e hmem
    unfold verifyTickW
    exact verify_foldl_fail_evict isOpen st.conns
      (st.conns, [Effect.presenceFetchOnline (max 100 st.conns.length)]) e hmem

/-- C1 amended witness: the amended theorem at a concrete state. -/
theorem C1_verification_failure_amended_witness :
    (verifyTickW (fun _ => false) (Except.error ())
      ⟨[(3, ⟨"u7", "Bob", ["GOLD"], "LOCAL", 2, 1, 1, true, none⟩)]⟩).1.conns = [] ∧
    Effect.closed 3 4401 "verification_socket_not_open" ∈
      (verifyTickW (fun _ => false) (Except.error ())
        ⟨[(3, ⟨"u7", "Bob", ["GOLD"], "LOCAL", 2, 1, 1, true, none⟩)]⟩).2 := by
  have h := C1_verification_failure_amended (fun _ => false)
    ⟨[(3, ⟨"u7", "Bob", ["GOLD"], "LOCAL", 2, 1, 1, true, none⟩)]⟩
  exact ⟨h.1, (h.2 (3, ⟨"u7", "Bob", ["GOLD"], "LOCAL", 2, 1, 1, true, none⟩)
    (by decide)).2.2.2 rfl⟩

/-! ## Claim C9 — non-empty roles invariant -/

/-- Every registry entry carries a non-empty roles list. -/
def rolesNonempty (conns : List (SocketId × ConnState)) : Prop :=
  ∀ e ∈ conns, e.2.roles ≠ []

theorem rolesNonempty_alRemove {conns : List (SocketId × ConnState)} (k : SocketId)
    (h : rolesNonempty conns) : rolesNonempty (alRemove k conns) :=
  fun e he => h e (mem_alRemove he)

theorem rolesNonempty_alUpd {conns : List (SocketId × ConnState)} (k : SocketId)
    (f : ConnState → ConnState) (hf : ∀ c, c.roles ≠ [] → (f c).roles ≠ [])
    (h : rolesNonempty conns) : rolesNonempty (alUpd k f conns) := by
  intro e he
  rcases mem_alUpd he with ⟨e₀, he₀, hcase⟩
  rcases hcase with hcase | hcase
  · rw [hcase]
    exact h e₀ he₀
  · rw [hcase]
    exact hf e₀.2 (h e₀ he₀)

theorem rolesNonempty_alSet {conns : List (SocketId × ConnState)} (k : SocketId)
    (v : ConnState) (hv : v.roles ≠ []) (h : rolesNonempty conns) :
    rolesNonempty (alSet k v conns) := by
  intro e he
  rcases mem_alSet k v he with hcase | hcase
  · rw [hcase]
    exact hv
  · exact h e hcase

theorem hbEntry_rolesNonempty (isOpen sendFails : SocketId → Bool)
    (now tickEvery offlineAfter : Nat)
    (acc : List (SocketId × ConnState) × List Effect) (e : SocketId × ConnState)
    (h : rolesNonempty acc.1) :
    rolesNonempty (hbEntry isOpen sendFails now tickEvery offlineAfter acc e).1 := by
  unfold hbEntry cleanupConnection
  split
  · exact rolesNonempty_alRemove _ h
  · split
    · exact rolesNonempty_alRemove _ h
    · split
      · split
        · exact rolesNonempty_alRemove _ h
        · dsimp only
          exact rolesNonempty_alUpd _ _ (fun c hc => hc) h
      · exact h

theorem hb_foldl_rolesNonempty (isOpen sendFails : SocketId → Bool)
    (now tickEvery offlineAfter : Nat) :
    ∀ (l : List (SocketId × ConnState)) (acc : List (SocketId × ConnState) × List Effect),
      rolesNonempty acc.1 →
      rolesNonempty ((l.foldl (hbEntry isOpen sendFails now tickEvery offlineAfter) acc)).1
  | [], _, h => h
  | e :: es, acc, h =>
      hb_foldl_rolesNonempty isOpen sendFails now tickEvery offlineAfter es _
        (hbEntry_rolesNonempty isOpen sendFails now tickEvery offlineAfter acc e h)

theorem verifyEntry_rolesNonempty (isOpen : SocketId → Bool)
    (byUuid : String → Option PresSnap)
    (acc : List (SocketId × ConnState) × List Effect) (e : SocketId × ConnState)
    (h : rolesNonempty acc.1) :
    rolesNonempty (verifyEntry isOpen byUuid acc e).1 := by
  unfold verifyEntry cleanupConnection
  split
  · exact rolesNonempty_alRemove _ h
  · split
    · exact rolesNonempty_alRemove _ h
    · split
      · exact rolesNonempty_alRemove _ h
      · split
        · exact rolesNonempty_alRemove _ h
        · exact h

theorem verify_foldl_rolesNonempty (isOpen : SocketId → Bool)
    (byUuid : String → Option PresSnap) :
    ∀ (l : List (SocketId × ConnState)) (acc : List (SocketId × ConnState) × List Effect),
      rolesNonempty acc.1 →
      rolesNonempty ((l.foldl (verifyEntry isOpen byUuid) acc)).1
  | [], _, h => h
  | e :: es, acc, h =>
      verify_foldl_rolesNonempty isOpen byUuid es _
        (verifyEntry_rolesNonempty isOpen byUuid acc e h)

theorem handleAuthW_rolesNonempty (isOpen : SocketId → Bool) (fetchRes : FetchRolesRes)
    (freshUuid : String) (now : Nat) (sockIp : Option String) (sock : SocketId)
    (m : AuthMsg) (st : GwState) (h : rolesNonempty st.conns) :
    rolesNonempty (handleAuthW isOpen fetchRes freshUuid now sockIp sock m st).1.conns := by
  unfold handleAuthW
  exact rolesNonempty_alSet _ _ (effectiveRolesCalc_ne_nil _ _) h

theorem msgStep_rolesNonempty (ctx : MsgCtx) (sock : SocketId) (m : ClientMsg)
    (st : GwState) (hv : SchemaValid m) (h : rolesNonempty st.conns) :
    rolesNonempty (msgStep ctx sock m st).1.conns := by
  cases m with
  | auth am =>
      unfold msgStep
      dsimp only
      exact rolesNonempty_alUpd _ _ (fun c hc => hc)
        (handleAuthW_rolesNonempty ctx.isOpen ctx.fetchRes ctx.freshUuid ctx.now
          ctx.sockIp sock am st h)
  | ping =>
      unfold msgStep
      dsimp only
      refine rolesNonempty_alUpd _ _ (fun c hc => hc) ?_
      unfold handlePingW
      cases hl : alLookup sock st.conns with
      | none => exact h
      | some cs =>
          dsimp only
          exact rolesNonempty_alUpd _ _ (fun c hc => hc) h
  | rolesUpdate rs =>
      unfold msgStep
      dsimp only
      refine rolesNonempty_alUpd _ _ (fun c hc => hc) ?_
      unfold handleRolesUpdateW
      cases hl : alLookup sock st.conns with
      | none => exact h
      | some cs =>
          dsimp only
          refine rolesNonempty_alUpd _ _ (fun c _ => ?_) h
          exact normalizeRolesStr_valid_ne_nil hv.1 hv.2.2
  | warpStatus =>
      unfold msgStep
      dsimp only
      refine rolesNonempty_alUpd _ _ (fun c hc => hc) ?_
      unfold handleWarpStatusW
      cases hl : alLookup sock st.conns with
      | none => exact h
      | some cs =>
          by_cases hcu : cs.uuid = ""
          · simpa [hcu] using h
          · simpa [hcu] using h

theorem closeStep_rolesNonempty (isOpen : SocketId → Bool) (sock : SocketId)
    (st : GwState) (h : rolesNonempty st.conns) :
    rolesNonempty (closeStep isOpen sock st).1.conns := by
  unfold closeStep cleanupConnection
  cases hl : alLookup sock st.conns with
  | none => exact h
  | some cs => exact rolesNonempty_alRemove _ h

/-- C9: in every reachable state, every registry entry has a non-empty
roles list — auth installs a non-empty effective set ([MEMBER] as the
last fallback), a schema-valid roles.update stores a non-empty
normalization, and no other operation writes the roles field. -/
theorem C9_roles_nonempty_invariant (st : GwState) (h : Reachable st) :
    ∀ e ∈ st.conns, e.2.roles ≠ [] := by
  induction h with
  | init => intro e he; cases he
  | step hr hstep ih =>
      cases hstep with
      | msg ctx sock m hv => exact msgStep_rolesNonempty ctx sock m _ hv ih
      | hb hbInterval offlineAfter isOpen sendFails now =>
          exact hb_foldl_rolesNonempty isOpen sendFails now _ offlineAfter _ _ ih
      | verify isOpen fetchRes =>
          exact verify_foldl_rolesNonempty isOpen _ _ _ ih
      | close isOpen sock => exact closeStep_rolesNonempty isOpen sock _ ih

/-- C9 witness: the invariant applied to the concrete entry created by
one schema-valid auth step from the initial state (with empty provided
roles, so the [MEMBER] fallback fires). -/
theorem C9_roles_nonempty_invariant_witness :
    (⟨"u1", "Alice", ["MEMBER"], "LOCAL", 3, 2, 2, true, none⟩ : ConnState).roles ≠ [] :=
  C9_roles_nonempty_invariant
    (msgStep ⟨fun _ => true, FetchRolesRes.missing, "f", none, 2, 3⟩ 0
      (ClientMsg.auth ⟨"u1", "Alice", "LOCAL", none⟩) ⟨[]⟩).1
    (Reachable.step Reachable.init
      (Step.msg ⟨[]⟩ ⟨fun _ => true, FetchRolesRes.missing, "f", none, 2, 3⟩ 0
        (ClientMsg.auth ⟨"u1", "Alice", "LOCAL", none⟩)
        (by refine ⟨by decide, by decide, by decide, by decide, by decide, by decide, ?_⟩
            intro rs hrs
            cases hrs)))
    (0, ⟨"u1", "Alice", ["MEMBER"], "LOCAL", 3, 2, 2, true, none⟩)
    (by decide)

/-- C2 witness: with store roles `["staff"]` and client hint `["GOLD"]`,
the auth.ok frame carries the normalized store roles `["STAFF"]`. -/
theorem C2_auth_effective_roles_witness :
    Effect.sent 0 (Frame.authOk "u1" ["STAFF"]) ∈
      (handleAuthW (fun _ => true) (FetchRolesRes.found ["staff"]) "fresh" 0 none 0
        ⟨"u1", "Alice", "LOCAL", some ["GOLD"]⟩ ⟨[]⟩).2 :=
  (C2_auth_effective_roles (fun _ => true) (FetchRolesRes.found ["staff"]) "fresh" 0 none 0
    ⟨"u1", "Alice", "LOCAL", some ["GOLD"]⟩ ⟨[]⟩).2 0 "u1" ["STAFF"] |>.mpr
    ⟨rfl, by decide, by decide, rfl⟩
